import Mathlib

/-!
Verification development for the kachi dual-rail metering and rating engine.

Shallow embedding conventions:
* Python `Decimal` is modelled as `ℚ` (all arithmetic used by the rating paths —
  `+`, `-`, `*`, `min`, `max`, comparisons — is exact on decimals; `Decimal`
  division appears only in average-unit-price and percent-discount positions,
  where the modelled claims do not depend on the 28-digit rounding context).
* Python `dict` (insertion ordered) is modelled as an association list with
  unique keys: lookup takes the first match, update rewrites in place,
  fresh keys are appended (matching CPython insertion-order semantics).
* Database-loaded inputs (aggregated meter readings, success-fee lines,
  COGS) are passed as explicit arguments to the rating entry point.
-/

namespace Kachi

/-- Association list standing in for a Python `dict` with string keys. -/
abbrev Dict (α : Type) := List (String × α)

/-- `d[k]` / `d.get(k)`: first (hence, with unique keys, the only) match. -/
def dictGet {α : Type} (d : Dict α) (k : String) : Option α :=
  (d.find? (fun p => p.1 == k)).map (·.2)

/-- `d[k] = v`: overwrite an existing key in place, append a fresh key. -/
def dictSet {α : Type} : Dict α → String → α → Dict α
  | [], k, v => [(k, v)]
  | (k', v') :: rest, k, v =>
    if k' == k then (k, v) :: rest else (k', v') :: dictSet rest k v

/-- `defaultdict(Decimal)` accumulation: `d[k] += v` with default `0`. -/
def dictAdd (d : Dict ℚ) (k : String) (v : ℚ) : Dict ℚ :=
  match dictGet d k with
  | some w => dictSet d k (w + v)
  | none => d ++ [(k, v)]

/-- Python `s.startswith(p)`, on the underlying character lists. -/
def startsWith (s p : String) : Bool :=
  p.toList.isPrefixOf s.toList

/- ----------------------------------------------------------------
   kachi/lib/rating_policies.py — data model
   ---------------------------------------------------------------- -/

/-- `PricingTier`: a pricing tier with min/max usage and unit price. -/
structure PricingTier where
  min_usage : ℚ := 0
  max_usage : Option ℚ := none
  unit_price : ℚ := 0
  flat_fee : ℚ := 0

/-- `MeterPricing`: pricing configuration for a specific meter. -/
structure MeterPricing where
  meter_key : String
  included_quota : ℚ := 0
  tiers : List PricingTier := []
  unit : String := "count"

/-- One exclusion dict `{"when": ..., "drop": [...]}` of `RatingPolicy.exclusions`;
`when` is `exclusion.get("when")` (may be absent), `drop` is
`exclusion.get("drop", [])`. -/
structure ExclusionRule where
  when : Option String := none
  drop : List String := []

/-- `RatingPolicy`: complete rating policy for a customer plan. -/
structure RatingPolicy where
  precedence : String := "work_over_edges"
  edges_included_per_work : Dict (Dict ℚ) := []
  exclusions : List ExclusionRule := []
  overage_spill : Bool := true
  meter_pricing : Dict MeterPricing := []
  base_fee : ℚ := 0
  spend_cap : Option ℚ := none
  discount_percent : ℚ := 0

/-- `UsageReading`: a single (aggregated) meter reading for rating. -/
structure UsageReading where
  meter_key : String
  value : ℚ
  customer_id : String := ""
  period_start : String := ""
  period_end : String := ""

/-- `RatedLine`: a single rated line item. -/
structure RatedLine where
  meter_key : String
  usage_quantity : ℚ
  billable_quantity : ℚ
  unit_price : ℚ
  amount : ℚ
  line_type : String
  description : String
  envelope_consumed : ℚ := 0
  included_consumed : ℚ := 0

/-- `EnvelopeAllocation`: tracks envelope allocations for edge meters. -/
structure EnvelopeAllocation where
  edge_meter : String
  allocated : ℚ
  consumed : ℚ
  remaining : ℚ

/-- `RatingResult`: complete rating result for a billing period. -/
structure RatingResult where
  customer_id : String
  period_start : String
  period_end : String
  lines : List RatedLine
  envelopes : Dict EnvelopeAllocation
  subtotal : ℚ
  discount_amount : ℚ
  total : ℚ
  cogs_estimate : ℚ := 0
  margin_estimate : ℚ := 0

/- ----------------------------------------------------------------
   kachi/lib/rating_policies.py — functions
   ---------------------------------------------------------------- -/

/-- The `work_prefixes` list of `is_work_meter`. -/
def work_prefix_list : List String := ["workflow.", "outcome.", "step.", "task."]

/-- The `edge_prefixes` list of `is_edge_meter`. -/
def edge_prefix_list : List String := ["api.", "llm.", "compute.", "storage.", "net."]

/-- `is_work_meter`: check if a meter represents work/outcomes. -/
def is_work_meter (meter_key : String) : Bool :=
  work_prefix_list.any (fun p => startsWith meter_key p)

/-- `is_edge_meter`: check if a meter represents resource consumption. -/
def is_edge_meter (meter_key : String) : Bool :=
  edge_prefix_list.any (fun p => startsWith meter_key p)

/-- `allocate_work_envelopes`: allocate edge envelopes based on work completed. -/
def allocate_work_envelopes (usage_readings : List UsageReading)
    (policy : RatingPolicy) : Dict ℚ :=
  let work_usage : Dict ℚ :=
    (usage_readings.filter (fun r => is_work_meter r.meter_key)).foldl
      (fun m r => dictSet m r.meter_key r.value) []
  work_usage.foldl
    (fun envelopes wu =>
      let edge_allowances := (dictGet policy.edges_included_per_work wu.1).getD []
      edge_allowances.foldl
        (fun envs ea => dictAdd envs ea.1 (ea.2 * wu.2)) envelopes)
    []

/-- The tier loop of `calculate_tiered_pricing`, with the loop state
`(remaining_usage, usage_processed)` made explicit; returns
`(total_amount, tier_breakdown)` for the remaining tiers. -/
def tieredLoop : List PricingTier → ℚ → ℚ → ℚ × List (ℚ × ℚ × ℚ)
  | [], _, _ => (0, [])
  | tier :: rest, remaining_usage, usage_processed =>
    if remaining_usage ≤ 0 then (0, [])
    else
      let tier_start := tier.min_usage
      let tier_end := tier.max_usage.getD (usage_processed + remaining_usage)
      if usage_processed < tier_start then
        let skip_amount := tier_start - usage_processed
        if remaining_usage ≤ skip_amount then (0, [])
        else
          let remaining' := remaining_usage - skip_amount
          let tier_capacity := tier_end - tier_start
          let tier_usage := min remaining' tier_capacity
          if 0 < tier_usage then
            let tier_amount := tier_usage * tier.unit_price + tier.flat_fee
            let next := tieredLoop rest (remaining' - tier_usage) (tier_start + tier_usage)
            (tier_amount + next.1, (tier_usage, tier.unit_price, tier_amount) :: next.2)
          else tieredLoop rest remaining' tier_start
      else
        let tier_capacity := tier_end - usage_processed
        let tier_usage := min remaining_usage tier_capacity
        if 0 < tier_usage then
          let tier_amount := tier_usage * tier.unit_price + tier.flat_fee
          let next := tieredLoop rest (remaining_usage - tier_usage) (usage_processed + tier_usage)
          (tier_amount + next.1, (tier_usage, tier.unit_price, tier_amount) :: next.2)
        else tieredLoop rest remaining_usage usage_processed

/-- `calculate_tiered_pricing`: returns `(total_amount, tier_breakdown)`. -/
def calculate_tiered_pricing (usage : ℚ) (pricing : MeterPricing) :
    ℚ × List (ℚ × ℚ × ℚ) :=
  if pricing.tiers.isEmpty then (0, [])
  else tieredLoop pricing.tiers usage 0

/-- Condition under which one exclusion fires: `when_meter and
when_meter in usage_by_meter and usage_by_meter[when_meter].value > 0`
(a missing or empty `when` string is falsy). -/
def exclusionFires (usage_by_meter : Dict UsageReading) (e : ExclusionRule) : Bool :=
  match e.when with
  | none => false
  | some w =>
    !w.isEmpty &&
      (match dictGet usage_by_meter w with
       | some r => decide (0 < r.value)
       | none => false)

/-- The `excluded_meters` set accumulated by `apply_exclusions`
(modelled as a list; only membership is used). -/
def excludedMeters (usage_by_meter : Dict UsageReading)
    (exclusions : List ExclusionRule) : List String :=
  exclusions.foldl
    (fun acc e => if exclusionFires usage_by_meter e then acc ++ e.drop else acc) []

/-- The `usage_by_meter` dict of `apply_exclusions`:
`{r.meter_key: r for r in usage_readings}` (last occurrence wins). -/
def usageByMeter (usage_readings : List UsageReading) : Dict UsageReading :=
  usage_readings.foldl (fun m r => dictSet m r.meter_key r) []

/-- `apply_exclusions`: apply exclusion rules to filter out certain meters. -/
def apply_exclusions (usage_readings : List UsageReading)
    (policy : RatingPolicy) : List UsageReading :=
  if policy.exclusions.isEmpty then usage_readings
  else
    let excluded := excludedMeters (usageByMeter usage_readings) policy.exclusions
    usage_readings.filter (fun r => !excluded.contains r.meter_key)

/- ----------------------------------------------------------------
   kachi/apps/rater/main.py — RatingEngine
   ---------------------------------------------------------------- -/

/-- `RatingEngine._rate_meter`: rate a single meter without envelope
considerations. -/
def rate_meter (reading : UsageReading) (policy : RatingPolicy) : List RatedLine :=
  match dictGet policy.meter_pricing reading.meter_key with
  | none => []
  | some meter_pricing =>
    let billable_usage := max 0 (reading.value - meter_pricing.included_quota)
    if billable_usage ≤ 0 then
      [{ meter_key := reading.meter_key
         usage_quantity := reading.value
         billable_quantity := 0
         unit_price := 0
         amount := 0
         line_type := if is_work_meter reading.meter_key then "work" else "edge"
         description := reading.meter_key ++ " (included in plan)"
         included_consumed := reading.value }]
    else
      let total_amount := (calculate_tiered_pricing billable_usage meter_pricing).1
      let avg_unit_price := if 0 < billable_usage then total_amount / billable_usage else 0
      [{ meter_key := reading.meter_key
         usage_quantity := reading.value
         billable_quantity := billable_usage
         unit_price := avg_unit_price
         amount := total_amount
         line_type := if is_work_meter reading.meter_key then "work" else "edge"
         description := reading.meter_key ++ " usage"
         included_consumed := meter_pricing.included_quota }]

/-- `RatingEngine._rate_edge_with_envelope`: rate an edge meter considering
envelope allocation.  The in-place mutation of the envelope object is
modelled by returning the updated envelope dict alongside the lines. -/
def rate_edge_with_envelope (reading : UsageReading) (policy : RatingPolicy)
    (envelopes : Dict EnvelopeAllocation) (reduction_factor : ℚ) :
    List RatedLine × Dict EnvelopeAllocation :=
  match dictGet policy.meter_pricing reading.meter_key with
  | none => ([], envelopes)
  | some meter_pricing =>
    let envelope := dictGet envelopes reading.meter_key
    let envelope_available :=
      match envelope with
      | some env => if 0 < env.remaining then env.remaining * reduction_factor else 0
      | none => 0
    let total_covered := meter_pricing.included_quota + envelope_available
    let billable_usage := max 0 (reading.value - total_covered)
    let envelopes' :=
      match envelope with
      | some env =>
        let envelope_consumed := min (reading.value - meter_pricing.included_quota) envelope_available
        dictSet envelopes reading.meter_key
          { env with consumed := env.consumed + envelope_consumed
                     remaining := env.remaining - envelope_consumed }
      | none => envelopes
    if billable_usage ≤ 0 then
      ([{ meter_key := reading.meter_key
          usage_quantity := reading.value
          billable_quantity := 0
          unit_price := 0
          amount := 0
          line_type := "edge"
          description := reading.meter_key ++ " (covered by plan + envelope)"
          included_consumed := meter_pricing.included_quota
          envelope_consumed := if envelope.isSome then envelope_available else 0 }],
       envelopes')
    else
      let total_amount := (calculate_tiered_pricing billable_usage meter_pricing).1
      let avg_unit_price := if 0 < billable_usage then total_amount / billable_usage else 0
      ([{ meter_key := reading.meter_key
          usage_quantity := reading.value
          billable_quantity := billable_usage
          unit_price := avg_unit_price
          amount := total_amount
          line_type := "edge"
          description := reading.meter_key ++ " overage"
          included_consumed := meter_pricing.included_quota
          envelope_consumed := if envelope.isSome then envelope_available else 0 }],
       envelopes')

/-- The work-meter loop shared by the precedence modes: rate every work
reading with `_rate_meter`, in order. -/
def rateWorkReadings (readings : List UsageReading) (policy : RatingPolicy) :
    List RatedLine :=
  readings.flatMap (fun r => if is_work_meter r.meter_key then rate_meter r policy else [])

/-- The edge-meter loop of `_rate_edges_over_work` (no envelopes applied). -/
def rateEdgeReadingsPlain (readings : List UsageReading) (policy : RatingPolicy) :
    List RatedLine :=
  readings.flatMap (fun r => if is_edge_meter r.meter_key then rate_meter r policy else [])

/-- The edge-meter loop of `_rate_work_over_edges`: rate edge readings with
envelope consumption, threading the envelope dict through. -/
def rateEdgeReadings : List UsageReading → RatingPolicy →
    Dict EnvelopeAllocation → ℚ → List RatedLine × Dict EnvelopeAllocation
  | [], _, envelopes, _ => ([], envelopes)
  | r :: rs, policy, envelopes, reduction_factor =>
    if is_edge_meter r.meter_key then
      let step := rate_edge_with_envelope r policy envelopes reduction_factor
      let rest := rateEdgeReadings rs policy step.2 reduction_factor
      (step.1 ++ rest.1, rest.2)
    else rateEdgeReadings rs policy envelopes reduction_factor

/-- `RatingEngine._rate_work_over_edges`. -/
def rate_work_over_edges (readings : List UsageReading) (policy : RatingPolicy)
    (envelopes : Dict EnvelopeAllocation) :
    List RatedLine × Dict EnvelopeAllocation :=
  let work_lines := rateWorkReadings readings policy
  let edge := rateEdgeReadings readings policy envelopes 1
  (work_lines ++ edge.1, edge.2)

/-- `RatingEngine._rate_edges_over_work` (the `_envelopes` argument is unused
by the source). -/
def rate_edges_over_work (readings : List UsageReading) (policy : RatingPolicy)
    (envelopes : Dict EnvelopeAllocation) :
    List RatedLine × Dict EnvelopeAllocation :=
  (rateEdgeReadingsPlain readings policy ++ rateWorkReadings readings policy, envelopes)

/-- `RatingEngine._rate_parallel`: single pass; edges get the
`reduction_factor=Decimal("0.5")` envelope benefit. -/
def rate_parallel : List UsageReading → RatingPolicy →
    Dict EnvelopeAllocation → List RatedLine × Dict EnvelopeAllocation
  | [], _, envelopes => ([], envelopes)
  | r :: rs, policy, envelopes =>
    if is_work_meter r.meter_key then
      let lines := rate_meter r policy
      let rest := rate_parallel rs policy envelopes
      (lines ++ rest.1, rest.2)
    else if is_edge_meter r.meter_key then
      let step := rate_edge_with_envelope r policy envelopes 0.5
      let rest := rate_parallel rs policy step.2
      (step.1 ++ rest.1, rest.2)
    else rate_parallel rs policy envelopes

/-- `RatingEngine._create_empty_result`. -/
def create_empty_result (customer_id period_start period_end : String) :
    RatingResult :=
  { customer_id := customer_id
    period_start := period_start
    period_end := period_end
    lines := []
    envelopes := []
    subtotal := 0
    discount_amount := 0
    total := 0 }

/-- `sum((line.amount for line in lines), Decimal("0"))`. -/
def sum_amounts (lines : List RatedLine) : ℚ :=
  lines.foldl (fun acc l => acc + l.amount) 0

/-- The base-fee line appended when `policy.base_fee > 0`. -/
def baseFeeLine (policy : RatingPolicy) : RatedLine :=
  { meter_key := "base_fee"
    usage_quantity := 1
    billable_quantity := 1
    unit_price := policy.base_fee
    amount := policy.base_fee
    line_type := "base_fee"
    description := "Monthly base fee" }

/-- The fresh `EnvelopeAllocation` objects built from the allocated
envelope amounts (`consumed = 0`, `remaining = allocated`). -/
def envelopeAllocationsInit (readings : List UsageReading)
    (policy : RatingPolicy) : Dict EnvelopeAllocation :=
  (allocate_work_envelopes readings policy).map (fun p =>
    (p.1, { edge_meter := p.1, allocated := p.2, consumed := 0, remaining := p.2 }))

/-- The precedence dispatch of `rate_customer_period` (any unknown
precedence string falls through to parallel). -/
def ratedByPrecedence (readings : List UsageReading) (policy : RatingPolicy)
    (envelopes : Dict EnvelopeAllocation) :
    List RatedLine × Dict EnvelopeAllocation :=
  if policy.precedence == "work_over_edges" then
    rate_work_over_edges readings policy envelopes
  else if policy.precedence == "edges_over_work" then
    rate_edges_over_work readings policy envelopes
  else
    rate_parallel readings policy envelopes

/-- The final line list: rated lines, then the base fee (if positive), then
the success-fee lines. -/
def linesWithFees (policy : RatingPolicy) (rated_lines : List RatedLine)
    (success_fee_lines : List RatedLine) : List RatedLine :=
  (if 0 < policy.base_fee then rated_lines ++ [baseFeeLine policy]
   else rated_lines) ++ success_fee_lines

/-- The spend-cap step on `(discount_amount, total)`: Python's
`if policy.spend_cap and total > policy.spend_cap` is truthy only for a
non-`None`, nonzero cap. -/
def applySpendCap (policy : RatingPolicy) (discount_amount total : ℚ) :
    ℚ × ℚ :=
  match policy.spend_cap with
  | some cap =>
    if cap ≠ 0 ∧ cap < total then (discount_amount + (total - cap), cap)
    else (discount_amount, total)
  | none => (discount_amount, total)

/-- `RatingEngine.rate_customer_period`.  Database-derived inputs are explicit
arguments: `usage_readings` is the `_load_meter_readings` output (aggregated,
one reading per meter key), `success_fee_lines` the `_calculate_success_fees`
output (the source reads `policy.success_fees`, a field the `RatingPolicy`
class does not declare; the success-fee lines it would build from settled
outcomes are taken as an input here), `cogs` the `_estimate_cogs` output. -/
def rate_customer_period (customer_id period_start period_end : String)
    (policy : RatingPolicy) (usage_readings : List UsageReading)
    (success_fee_lines : List RatedLine) (cogs : ℚ) : RatingResult :=
  if usage_readings.isEmpty then
    create_empty_result customer_id period_start period_end
  else
    let filtered_readings := apply_exclusions usage_readings policy
    let envelope_allocations := envelopeAllocationsInit filtered_readings policy
    let rated := ratedByPrecedence filtered_readings policy envelope_allocations
    let lines := linesWithFees policy rated.1 success_fee_lines
    let subtotal := sum_amounts lines
    let discount_amount := subtotal * (policy.discount_percent / 100)
    let total := subtotal - discount_amount
    let capped := applySpendCap policy discount_amount total
    { customer_id := customer_id
      period_start := period_start
      period_end := period_end
      lines := lines
      envelopes := rated.2
      subtotal := subtotal
      discount_amount := capped.1
      total := capped.2
      cogs_estimate := cogs
      margin_estimate := capped.2 - cogs }

/- ----------------------------------------------------------------
   kachi/apps/deriver/processors.py — EdgeDeriver
   ---------------------------------------------------------------- -/

/-- A raw event as seen by `EdgeDeriver.process_window`: its `event_type`
and the `edge` attribute group `payload.get("edge", {})` of its payload
(numeric attribute values; a missing payload yields the empty dict). -/
structure RawEventEdge where
  event_type : String
  edge : Dict ℚ := []

/-- The `edge_aggregates` accumulator dict of `EdgeDeriver.process_window`. -/
structure EdgeAggregates where
  api_calls : ℚ := 0
  llm_tokens : ℚ := 0
  llm_tokens_input : ℚ := 0
  llm_tokens_output : ℚ := 0
  compute_ms : ℚ := 0
  net_bytes : ℚ := 0
  storage_gbh : ℚ := 0

/-- `edge_attrs.get(key)` with Python numeric truthiness folded in:
the update guard `if edge_attrs.get(k):` is false for a missing key and
for the value `0`. -/
def edgeAttr (e : RawEventEdge) (k : String) : ℚ :=
  (dictGet e.edge k).getD 0

/-- The per-event body of the `EdgeDeriver.process_window` loop. -/
def processEdgeEvent (agg : EdgeAggregates) (e : RawEventEdge) : EdgeAggregates :=
  if e.edge.isEmpty then agg
  else
    let agg :=
      if e.event_type == "span_started" || e.event_type == "span_ended" then
        { agg with api_calls := agg.api_calls + 1 }
      else agg
    let ti := edgeAttr e "llm_tokens_input"
    let agg :=
      if ti ≠ 0 then
        { agg with llm_tokens_input := agg.llm_tokens_input + ti
                   llm_tokens := agg.llm_tokens + ti }
      else agg
    let to_ := edgeAttr e "llm_tokens_output"
    let agg :=
      if to_ ≠ 0 then
        { agg with llm_tokens_output := agg.llm_tokens_output + to_
                   llm_tokens := agg.llm_tokens + to_ }
      else agg
    let tt := edgeAttr e "llm_tokens"
    let agg := if tt ≠ 0 then { agg with llm_tokens := agg.llm_tokens + tt } else agg
    let cm := edgeAttr e "compute_ms"
    let agg := if cm ≠ 0 then { agg with compute_ms := agg.compute_ms + cm } else agg
    let net_in := edgeAttr e "net_bytes_in"
    let net_out := edgeAttr e "net_bytes_out"
    let agg :=
      if net_in ≠ 0 ∨ net_out ≠ 0 then
        { agg with net_bytes := agg.net_bytes + (net_in + net_out) }
      else agg
    let sg := edgeAttr e "storage_gb_hours"
    if sg ≠ 0 then { agg with storage_gbh := agg.storage_gbh + sg } else agg

/-- The aggregation loop of `EdgeDeriver.process_window`. -/
def edge_aggregates (events : List RawEventEdge) : EdgeAggregates :=
  events.foldl processEdgeEvent {}

/-- The meter readings emitted by `EdgeDeriver.process_window`: one
`(meter_key, value)` per aggregate with strictly positive value, in the
insertion order of the `edge_aggregates` dict. -/
def edge_readings (events : List RawEventEdge) : Dict ℚ :=
  let agg := edge_aggregates events
  ([("api.calls", agg.api_calls), ("llm.tokens", agg.llm_tokens),
    ("llm.tokens.input", agg.llm_tokens_input),
    ("llm.tokens.output", agg.llm_tokens_output),
    ("compute.ms", agg.compute_ms), ("net.bytes", agg.net_bytes),
    ("storage.gbh", agg.storage_gbh)]).filter (fun p => 0 < p.2)

/- ----------------------------------------------------------------
   kachi/lib/success_fees.py — OutcomeVerificationManager
   ---------------------------------------------------------------- -/

/-- An `OutcomeVerification` row joined to its `WorkflowRun`
(`customer_id` and `started_at` come from the run; timestamps are
modelled as integers).  The ORM class itself is not part of the sources,
only its migration and users; the fields here are the ones
`get_settled_outcomes` reads. -/
structure OutcomeVerificationRec where
  outcome_key : String
  status : String
  holdback_until : ℤ
  outcome_metadata : Option (Dict String) := none
  customer_id : String
  started_at : ℤ

/-- `OutcomeVerificationManager._matches_conditions`: falsy metadata
(absent or empty) fails; otherwise every conditions pair must be present
and equal. -/
def matches_conditions (v : OutcomeVerificationRec) (conditions : Dict String) :
    Bool :=
  match v.outcome_metadata with
  | none => false
  | some md =>
    if md.isEmpty then false
    else conditions.all (fun c =>
      match dictGet md c.1 with
      | some actual => actual == c.2
      | none => false)

/-- `OutcomeVerificationManager.get_settled_outcomes` over an explicit list
of joined rows standing in for the database query; `conditions` is falsy
when empty (Python passes `None` or `{}`). -/
def get_settled_outcomes (records : List OutcomeVerificationRec)
    (customer_id outcome_key : String) (period_start period_end now : ℤ)
    (conditions : Dict String) : List OutcomeVerificationRec :=
  let verifications := records.filter (fun v =>
    v.customer_id == customer_id && v.outcome_key == outcome_key &&
    v.status == "verified" && decide (v.holdback_until ≤ now) &&
    decide (period_start ≤ v.started_at) && decide (v.started_at ≤ period_end))
  if !conditions.isEmpty then
    verifications.filter (fun v => matches_conditions v conditions)
  else verifications

/- ----------------------------------------------------------------
   kachi/lib/metrics_transformer.py — MetricsTransformer
   ---------------------------------------------------------------- -/

/-- `MetricDataPoint` (timestamps as integer seconds). -/
structure MetricDataPoint where
  timestamp : ℤ
  value : ℚ
  labels : Dict String := []
  metric_name : String

/-- `MetricMapping`. -/
structure MetricMapping where
  external_metric_name : String
  kachi_meter_key : String
  transformation_function : Option String := none
  label_filters : Dict String := []
  customer_id_label : String := "customer_id"
  scaling_factor : ℚ := 1

/-- `MetricCollectionResult` (the fields the transformer reads). -/
structure MetricCollectionResult where
  success : Bool
  data_points : List MetricDataPoint := []

/-- A `MeterReading` row as created/updated by the transformer. -/
structure MeterReadingRow where
  customer_id : String
  meter_key : String
  window_start : ℤ
  value : ℚ

/-- `timestamp.replace(second=0, microsecond=0)` on integer seconds. -/
def floorMinute (ts : ℤ) : ℤ := ts - ts % 60

/-- The `_is_duplicate` content-hash input
`f"{customer_id}:{window_start.isoformat()}:{metric_name}:{value}"`;
the md5 digest is modelled by the content string itself (the code only
tests digests of such strings for equality). -/
def hash_input (customer_id : String) (window_start : ℤ) (metric_name : String)
    (value : ℚ) : String :=
  customer_id ++ ":" ++ toString window_start ++ ":" ++ metric_name ++ ":" ++
    toString value

/-- `MetricsTransformer._is_duplicate`: returns the verdict and the updated
`_processed_hashes` set (a fresh hash is recorded, a known one is not). -/
def is_duplicate (hashes : List String) (h : String) : Bool × List String :=
  if hashes.contains h then (true, hashes) else (false, h :: hashes)

/-- `MetricsTransformer._extract_customer_id`: a missing or empty label is
rejected.  UUID parsing is abstracted away: customer ids are their label
strings, and a parse failure behaves like an unknown customer, which the
`customers` validity set of the callers captures. -/
def extract_customer_id (dp : MetricDataPoint) (mapping : MetricMapping) :
    Option String :=
  match dictGet dp.labels mapping.customer_id_label with
  | some s => if s.isEmpty then none else some s
  | none => none

/-- `MetricsTransformer._matches_label_filters`. -/
def matches_label_filters (labels : Dict String) (mapping : MetricMapping) : Bool :=
  mapping.label_filters.all (fun f =>
    match dictGet labels f.1 with
    | some v => v == f.2
    | none => false)

/-- `MetricsTransformer._validate_mapping` as a predicate (the source raises
`MetricValidationError`, which `transform_metrics` turns into an error
result). -/
def validate_mapping (m : MetricMapping) : Bool :=
  !m.external_metric_name.isEmpty && !m.kachi_meter_key.isEmpty &&
    !m.customer_id_label.isEmpty && decide (0 < m.scaling_factor)

/-- Append a data point to its `(customer_id, window_start)` group, creating
the group at the end on first sight (Python dict-of-lists semantics). -/
def groupAppend (groups : List ((String × ℤ) × List MetricDataPoint))
    (key : String × ℤ) (dp : MetricDataPoint) :
    List ((String × ℤ) × List MetricDataPoint) :=
  match groups with
  | [] => [(key, [dp])]
  | (k, l) :: rest =>
    if k = key then (k, l ++ [dp]) :: rest else (k, l) :: groupAppend rest key dp

/-- One iteration of the `MetricsTransformer._group_by_customer_and_window`
loop, over the state `(customer_windows, _processed_hashes)`: skip a point
with no/unknown customer or failing label filters, skip (without touching
the state) a point whose content hash was already processed, otherwise
record the hash and append the point to its `(customer_id, window)` group. -/
def groupStep (customers : List String) (mapping : MetricMapping)
    (st : List ((String × ℤ) × List MetricDataPoint) × List String)
    (dp : MetricDataPoint) :
    List ((String × ℤ) × List MetricDataPoint) × List String :=
  match extract_customer_id dp mapping with
  | none => st
  | some customer_id =>
    if !customers.contains customer_id then st
    else if !matches_label_filters dp.labels mapping then st
    else
      let window_start := floorMinute dp.timestamp
      let dup := is_duplicate st.2
        (hash_input customer_id window_start dp.metric_name dp.value)
      if dup.1 then (st.1, dup.2)
      else (groupAppend st.1 (customer_id, window_start) dp, dup.2)

/-- `MetricsTransformer._group_by_customer_and_window`. -/
def group_by_customer_and_window (customers : List String)
    (mapping : MetricMapping) (data_points : List MetricDataPoint)
    (hashes : List String) :
    List ((String × ℤ) × List MetricDataPoint) × List String :=
  data_points.foldl (groupStep customers mapping) ([], hashes)

/-- `MetricsTransformer._aggregate_values`. -/
def aggregate_values (data_points : List MetricDataPoint)
    (mapping : MetricMapping) : ℚ :=
  let values := data_points.map (·.value)
  match mapping.transformation_function with
  | some "sum" => values.sum
  | some "avg" => if values.isEmpty then 0 else values.sum / values.length
  | some "max" => (values.max?).getD 0
  | some "min" => (values.min?).getD 0
  | some "rate" => values.sum
  | _ => values.sum

/-- Add `final_value` to the first matching existing row
(`existing_reading.value += final_value`). -/
def dbAddToExisting : List MeterReadingRow → String → String → ℤ → ℚ →
    List MeterReadingRow
  | [], _, _, _, _ => []
  | r :: rs, customer_id, meter_key, window_start, v =>
    if r.customer_id == customer_id && r.meter_key == meter_key &&
        r.window_start == window_start then
      { r with value := r.value + v } :: rs
    else r :: dbAddToExisting rs customer_id meter_key window_start v

/-- `MetricsTransformer._create_meter_reading` over an explicit row store:
returns the created/updated row (if any) and the updated store. -/
def create_meter_reading (db : List MeterReadingRow) (customer_id : String)
    (window_start : ℤ) (data_points : List MetricDataPoint)
    (mapping : MetricMapping) : Option MeterReadingRow × List MeterReadingRow :=
  if data_points.isEmpty then (none, db)
  else
    let aggregated_value := aggregate_values data_points mapping
    let final_value := aggregated_value * mapping.scaling_factor
    let existing := db.find? (fun r =>
      r.customer_id == customer_id && r.meter_key == mapping.kachi_meter_key &&
      r.window_start == window_start)
    match existing with
    | some r =>
      (some { r with value := r.value + final_value },
       dbAddToExisting db customer_id mapping.kachi_meter_key window_start final_value)
    | none =>
      let row : MeterReadingRow :=
        { customer_id := customer_id
          meter_key := mapping.kachi_meter_key
          window_start := window_start
          value := final_value }
      (some row, db ++ [row])

/-- Output of `transform_metrics`: the success flag and
`result.meter_readings`, plus the threaded transformer state (row store
and `_processed_hashes`). -/
structure MetricTransformOutput where
  success : Bool
  meter_readings : List MeterReadingRow
  db : List MeterReadingRow
  hashes : List String

/-- The reading-creation loop of `transform_metrics` over the grouped
windows. -/
def transformLoop (mapping : MetricMapping) :
    List ((String × ℤ) × List MetricDataPoint) → List MeterReadingRow →
    List MeterReadingRow × List MeterReadingRow
  | [], db => ([], db)
  | ((customer_id, window_start), dps) :: groups, db =>
    let step := create_meter_reading db customer_id window_start dps mapping
    let rest := transformLoop mapping groups step.2
    match step.1 with
    | some row => (row :: rest.1, rest.2)
    | none => (rest.1, rest.2)

/-- `MetricsTransformer.transform_metrics`: failed collections and invalid
mappings return an error result without touching the store or the hash
set; otherwise group, dedup, and create/update readings. -/
def transform_metrics (customers : List String) (db : List MeterReadingRow)
    (hashes : List String) (collection_result : MetricCollectionResult)
    (mapping : MetricMapping) : MetricTransformOutput :=
  if !collection_result.success then
    { success := false, meter_readings := [], db := db, hashes := hashes }
  else if !validate_mapping mapping then
    { success := false, meter_readings := [], db := db, hashes := hashes }
  else
    let grouped := group_by_customer_and_window customers mapping
      collection_result.data_points hashes
    let created := transformLoop mapping grouped.1 db
    { success := true, meter_readings := created.1, db := created.2,
      hashes := grouped.2 }

/- ----------------------------------------------------------------
   Helper lemmas
   ---------------------------------------------------------------- -/

/-- Two prefixes of the same string are comparable. -/
lemma startsWith_comparable {s p q : String} (hp : startsWith s p = true)
    (hq : startsWith s q = true) :
    p.toList.isPrefixOf q.toList = true ∨ q.toList.isPrefixOf p.toList = true := by
  rw [startsWith, List.isPrefixOf_iff_prefix] at hp hq
  rw [List.isPrefixOf_iff_prefix, List.isPrefixOf_iff_prefix]
  exact List.prefix_or_prefix_of_prefix hp hq

/- ----------------------------------------------------------------
   C10
   ---------------------------------------------------------------- -/

/-- C10: meter classification is exclusive — no meter key string is both a
work meter (prefixes `workflow.`, `outcome.`, `step.`, `task.`) and an edge
meter (prefixes `api.`, `llm.`, `compute.`, `storage.`, `net.`), the two
prefix sets being pairwise incomparable; hence every reading is rated on at
most one rail in every precedence mode. -/
theorem C10_meter_classification_exclusive (k : String) :
    (is_work_meter k && is_edge_meter k) = false := by
  cases hw : is_work_meter k with
  | false => simp
  | true =>
    cases he : is_edge_meter k with
    | false => simp
    | true =>
      exfalso
      rw [is_work_meter, List.any_eq_true] at hw
      rw [is_edge_meter, List.any_eq_true] at he
      obtain ⟨p, hp, hps⟩ := hw
      obtain ⟨q, hq, hqs⟩ := he
      simp only [work_prefix_list, List.mem_cons, List.not_mem_nil, or_false] at hp
      simp only [edge_prefix_list, List.mem_cons, List.not_mem_nil, or_false] at hq
      rcases hp with rfl | rfl | rfl | rfl <;>
        rcases hq with rfl | rfl | rfl | rfl | rfl <;>
          rcases startsWith_comparable hps hqs with h | h <;> revert h <;> decide

/- ----------------------------------------------------------------
   C6
   ---------------------------------------------------------------- -/

/-- C6 counterexample: with `base_fee = 99 > 0` but no meter readings in the
period, `rate_customer_period` returns the empty result — no `base_fee` line
is emitted, contradicting the claim's "for every input, including a period in
which the customer has no meter readings". -/
theorem C6_counterexample :
    (rate_customer_period "c" "s" "e" { base_fee := 99 } [] [] 0).lines = [] ∧
    (0 : ℚ) < ({ base_fee := 99 } : RatingPolicy).base_fee := by
  constructor
  · rfl
  · norm_num

/-- C6 (amended): whenever `policy.base_fee > 0` and the period has at least
one aggregated meter reading, the rating result contains a line of type
`base_fee` with amount `policy.base_fee`.  (With no readings the engine
returns the empty result and no base fee is charged.) -/
theorem C6_base_fee_line (cid ps pe : String) (policy : RatingPolicy)
    (readings : List UsageReading) (success_fee_lines : List RatedLine) (cogs : ℚ)
    (hne : readings ≠ []) (hbf : 0 < policy.base_fee) :
    ∃ l ∈ (rate_customer_period cid ps pe policy readings
      success_fee_lines cogs).lines,
      l.line_type = "base_fee" ∧ l.amount = policy.base_fee := by
  refine ⟨baseFeeLine policy, ?_, rfl, rfl⟩
  unfold rate_customer_period
  rw [if_neg (by simpa using hne)]
  unfold linesWithFees
  apply List.mem_append_left
  simp only [if_pos hbf]
  exact List.mem_append_right _ (List.mem_singleton_self _)

/-- C6 witness: the amended claim at a concrete one-reading input. -/
theorem C6_base_fee_line_witness :
    ∃ l ∈ (rate_customer_period "c" "s" "e" { base_fee := 99 }
      [{ meter_key := "x", value := 1 }] [] 0).lines,
      l.line_type = "base_fee" ∧
        l.amount = ({ base_fee := 99 } : RatingPolicy).base_fee :=
  C6_base_fee_line "c" "s" "e" { base_fee := 99 }
    [{ meter_key := "x", value := 1 }] [] 0 (by simp) (by norm_num)

/- ----------------------------------------------------------------
   C8
   ---------------------------------------------------------------- -/

/-- Modelled from the spec: the `api.calls` value the claim asserts — one per
event whose `event_type` is `span_started` or `span_ended`, regardless of
edge attributes. -/
def span_event_count (events : List RawEventEdge) : Nat :=
  (events.filter (fun e =>
    e.event_type == "span_started" || e.event_type == "span_ended")).length

/-- How one event changes the `api.calls` aggregate: `+1` only when the event
is a span start/end AND its payload carries a non-empty `edge` attribute
group (the deriver `continue`s on an empty one). -/
lemma processEdgeEvent_api_calls (agg : EdgeAggregates) (e : RawEventEdge) :
    (processEdgeEvent agg e).api_calls =
      if (e.event_type == "span_started" || e.event_type == "span_ended") &&
          !e.edge.isEmpty then
        agg.api_calls + 1
      else agg.api_calls := by
  by_cases he : e.edge.isEmpty = true
  · simp [processEdgeEvent, he]
  · by_cases hs : (e.event_type == "span_started" ||
        e.event_type == "span_ended") = true
    · simp only [processEdgeEvent, if_neg he, if_pos hs,
        apply_ite EdgeAggregates.api_calls, ite_self]
      simp [he, hs]
    · simp only [processEdgeEvent, if_neg he, if_neg hs,
        apply_ite EdgeAggregates.api_calls, ite_self]
      simp [he, hs]

/-- The aggregation loop counts qualifying events on top of any start state. -/
lemma edge_aggregates_loop_api_calls (events : List RawEventEdge) :
    ∀ agg : EdgeAggregates,
      (events.foldl processEdgeEvent agg).api_calls =
        agg.api_calls +
          ((events.filter (fun e =>
            (e.event_type == "span_started" || e.event_type == "span_ended") &&
            !e.edge.isEmpty)).length : ℚ) := by
  induction events with
  | nil => intro agg; simp
  | cons e es ih =>
    intro agg
    rw [List.foldl_cons, ih, List.filter_cons]
    by_cases h : ((e.event_type == "span_started" ||
        e.event_type == "span_ended") && !e.edge.isEmpty) = true
    · rw [if_pos h, processEdgeEvent_api_calls, if_pos h]
      simp only [List.length_cons, Nat.cast_add, Nat.cast_one]
      ring
    · rw [if_neg h, processEdgeEvent_api_calls, if_neg h]

/-- C8 counterexample: a `span_started` event with no `edge` attributes is
skipped by the deriver, so the derived `api.calls` value is `0` while the
claim's count of span start/end events is `1`. -/
theorem C8_counterexample :
    (edge_aggregates [{ event_type := "span_started" }]).api_calls = 0 ∧
    span_event_count [{ event_type := "span_started" }] = 1 := by
  constructor <;> rfl

/-- C8 (amended): the derived `api.calls` value equals the number of input
events whose `event_type` is `span_started` or `span_ended` and whose payload
carries a non-empty `edge` attribute group; events without edge attributes
are skipped entirely. -/
theorem C8_api_calls_count (events : List RawEventEdge) :
    (edge_aggregates events).api_calls =
      ((events.filter (fun e =>
        (e.event_type == "span_started" || e.event_type == "span_ended") &&
        !e.edge.isEmpty)).length : ℚ) := by
  rw [edge_aggregates, edge_aggregates_loop_api_calls]
  simp [EdgeAggregates.api_calls]

/- ----------------------------------------------------------------
   C7
   ---------------------------------------------------------------- -/

/-- `_matches_conditions` unfolded to its logical content. -/
lemma matches_conditions_iff (v : OutcomeVerificationRec)
    (conditions : Dict String) :
    matches_conditions v conditions = true ↔
      ∃ md, v.outcome_metadata = some md ∧ md ≠ [] ∧
        ∀ c ∈ conditions, dictGet md c.1 = some c.2 := by
  unfold matches_conditions
  cases hmd : v.outcome_metadata with
  | none => simp
  | some md =>
    by_cases hempty : md.isEmpty
    · simp only [if_pos hempty]
      constructor
      · intro h; exact absurd h (by simp)
      · rintro ⟨md', hmd', hne, _⟩
        cases hmd'
        exact absurd (List.isEmpty_iff.mp hempty) hne
    · simp only [if_neg hempty, List.all_eq_true]
      constructor
      · intro h
        refine ⟨md, rfl, by simpa [List.isEmpty_iff] using hempty, fun c hc => ?_⟩
        have := h c hc
        cases hg : dictGet md c.1 with
        | none => rw [hg] at this; exact absurd this (by simp)
        | some a => rw [hg] at this; simp_all
      · rintro ⟨md', hmd', _, hall⟩ c hc
        cases hmd'
        rw [hall c hc]
        simp

/-- One concrete settled-outcome row used to refute C7's half-open window. -/
def outcomeAtPeriodEnd : OutcomeVerificationRec :=
  { outcome_key := "outcome.sale", status := "verified", holdback_until := 0,
    customer_id := "cust", started_at := 100 }

/-- C7 counterexample: a verified, settled outcome whose `WorkflowRun.started_at`
equals `period_end` is returned by `get_settled_outcomes` (the query uses
`started_at <= period_end`), although the claim's half-open interval
`[start, end)` excludes it. -/
theorem C7_counterexample :
    get_settled_outcomes [outcomeAtPeriodEnd] "cust" "outcome.sale" 0 100 1000 []
      = [outcomeAtPeriodEnd] ∧
    ¬(outcomeAtPeriodEnd.started_at < 100) := by
  constructor
  · rfl
  · decide

/-- C7 (amended): `get_settled_outcomes` returns exactly the joined records
whose status is `verified`, whose `holdback_until` is at most `now`, whose
run belongs to the customer, whose `started_at` lies in the CLOSED interval
`[period_start, period_end]` (both comparisons are `<=` in the query), and —
only when a non-empty `conditions` dict is supplied — whose metadata is
present, non-empty, and contains every conditions pair. -/
theorem C7_settled_outcomes_exact (records : List OutcomeVerificationRec)
    (cid okey : String) (ps pe now : ℤ) (conds : Dict String)
    (r : OutcomeVerificationRec) :
    r ∈ get_settled_outcomes records cid okey ps pe now conds ↔
      r ∈ records ∧ r.customer_id = cid ∧ r.outcome_key = okey ∧
      r.status = "verified" ∧ r.holdback_until ≤ now ∧
      ps ≤ r.started_at ∧ r.started_at ≤ pe ∧
      (conds ≠ [] → ∃ md, r.outcome_metadata = some md ∧ md ≠ [] ∧
        ∀ c ∈ conds, dictGet md c.1 = some c.2) := by
  simp only [get_settled_outcomes]
  split
  · rename_i hcond
    have hcne : conds ≠ [] := by
      intro hnil
      rw [hnil] at hcond
      simp at hcond
    rw [List.mem_filter, List.mem_filter, matches_conditions_iff]
    constructor
    · rintro ⟨⟨hrec, hq⟩, hm⟩
      simp only [Bool.and_eq_true, beq_iff_eq, decide_eq_true_eq] at hq
      exact ⟨hrec, hq.1.1.1.1.1, hq.1.1.1.1.2, hq.1.1.1.2, hq.1.1.2, hq.1.2,
        hq.2, fun _ => hm⟩
    · rintro ⟨hrec, h1, h2, h3, h4, h5, h6, hm⟩
      refine ⟨⟨hrec, ?_⟩, hm hcne⟩
      simp only [Bool.and_eq_true, beq_iff_eq, decide_eq_true_eq]
      exact ⟨⟨⟨⟨⟨h1, h2⟩, h3⟩, h4⟩, h5⟩, h6⟩
  · rename_i hcond
    have hcnil : conds = [] := by
      cases conds with
      | nil => rfl
      | cons c cs => simp at hcond
    subst hcnil
    rw [List.mem_filter]
    simp only [Bool.and_eq_true, beq_iff_eq, decide_eq_true_eq, ne_eq,
      not_true_eq_false, false_implies, and_true]
    tauto

/- ----------------------------------------------------------------
   C2
   ---------------------------------------------------------------- -/

/-- The single tier of the C2 failing-input pricing. -/
def tierC2 : PricingTier := { unit_price := 1 }

/-- C2 failing-input pricing for `llm.tokens`: included quota of 10. -/
def pricingC2 : MeterPricing :=
  { meter_key := "llm.tokens", included_quota := 10, tiers := [tierC2] }

/-- C2 failing-input policy: each completed workflow grants 10 `llm.tokens`
of envelope. -/
def policyC2 : RatingPolicy :=
  { edges_included_per_work := [("workflow.completed", [("llm.tokens", 10)])],
    meter_pricing := [("llm.tokens", pricingC2)] }

/-- C2 failing-input readings: 2 completed workflows (envelope 20) and
`llm.tokens` usage 5, strictly below the included quota of 10. -/
def readingsC2 : List UsageReading :=
  [{ meter_key := "workflow.completed", value := 2 },
   { meter_key := "llm.tokens", value := 5 }]

/-- C2: evaluation of the code at the failing input.  The envelope update is
`consumed += min(usage - included_quota, envelope_available)` — without the
`max(0, ...)` clamp of the spec — so with usage 5 below the included quota 10
the consumption increment is `min(-5, 20) = -5`: `consumed` ends negative
(and `remaining` exceeds `allocated`), violating `0 ≤ consumed`.  The
`consumed + remaining = allocated` part survives. -/
theorem C2_envelope_negative_consumption :
    ∃ env, dictGet (rate_customer_period "c" "s" "e" policyC2 readingsC2 [] 0).envelopes
        "llm.tokens" = some env ∧
      env.consumed + env.remaining = env.allocated ∧
      env.consumed < 0 ∧ env.allocated < env.remaining := by
  have h1 : is_work_meter "workflow.completed" = true := by decide
  have h2 : is_edge_meter "workflow.completed" = false := by decide
  have h3 : is_work_meter "llm.tokens" = false := by decide
  have h4 : is_edge_meter "llm.tokens" = true := by decide
  refine ⟨{ edge_meter := "llm.tokens", allocated := 20, consumed := -5,
            remaining := 25 }, ?_, by norm_num, by norm_num, by norm_num⟩
  norm_num [policyC2, pricingC2, tierC2, readingsC2,
    rate_customer_period, apply_exclusions, allocate_work_envelopes,
    envelopeAllocationsInit, ratedByPrecedence, linesWithFees, applySpendCap,
    rate_work_over_edges, rateWorkReadings, rateEdgeReadings,
    rate_edge_with_envelope, rate_meter, h1, h2, h3, h4,
    dictGet, dictSet, dictAdd, sum_amounts,
    calculate_tiered_pricing, tieredLoop]

/- ----------------------------------------------------------------
   C3
   ---------------------------------------------------------------- -/

/-- The single tier of the C3 failing-input pricing: 0.01 per call. -/
def tierC3 : PricingTier := { unit_price := 1 / 100 }

/-- C3 failing-input pricing for `api.calls`: no included quota. -/
def pricingC3 : MeterPricing := { meter_key := "api.calls", tiers := [tierC3] }

/-- C3 failing-input policy: `overage_spill = false`, no envelopes. -/
def policyC3 : RatingPolicy :=
  { overage_spill := false, meter_pricing := [("api.calls", pricingC3)] }

/-- C3 failing-input readings: 100 API calls, all beyond included + envelope. -/
def readingsC3 : List UsageReading := [{ meter_key := "api.calls", value := 100 }]

/-- C3: evaluation of the code at the failing input.  `overage_spill` is
never consulted by `_rate_edge_with_envelope` (or anywhere else in the
engine), so with `overage_spill = false` the 100 calls beyond
included_quota + envelope are still billed: the line has billable
quantity 100 and amount 1, not 0. -/
theorem C3_overage_billed_despite_no_spill :
    policyC3.overage_spill = false ∧
    ∃ l ∈ (rate_customer_period "c" "s" "e" policyC3 readingsC3 [] 0).lines,
      l.meter_key = "api.calls" ∧ l.billable_quantity = 100 ∧ l.amount = 1 := by
  have h1 : is_work_meter "api.calls" = false := by decide
  have h2 : is_edge_meter "api.calls" = true := by decide
  refine ⟨rfl, ?_⟩
  have hlines : (rate_customer_period "c" "s" "e" policyC3 readingsC3 [] 0).lines =
      [{ meter_key := "api.calls", usage_quantity := 100, billable_quantity := 100,
         unit_price := 1 / 100, amount := 1, line_type := "edge",
         description := "api.calls overage", envelope_consumed := 0,
         included_consumed := 0 }] := by
    norm_num [policyC3, pricingC3, tierC3, readingsC3,
      rate_customer_period, apply_exclusions, allocate_work_envelopes,
      envelopeAllocationsInit, ratedByPrecedence, linesWithFees, applySpendCap,
      rate_work_over_edges, rateWorkReadings, rateEdgeReadings,
      rate_edge_with_envelope, rate_meter, h1, h2,
      dictGet, dictSet, dictAdd, sum_amounts,
      calculate_tiered_pricing, tieredLoop]
    decide
  rw [hlines]
  exact ⟨_, List.mem_singleton_self _, rfl, rfl, rfl⟩

/- ----------------------------------------------------------------
   C9
   ---------------------------------------------------------------- -/

/-- Whether a data point survives the customer and label-filter checks of
`_group_by_customer_and_window` (everything before the dedup check). -/
def dpPasses (customers : List String) (mapping : MetricMapping)
    (dp : MetricDataPoint) : Bool :=
  match extract_customer_id dp mapping with
  | none => false
  | some cid => customers.contains cid && matches_label_filters dp.labels mapping

/-- The content hash a surviving data point is deduplicated by. -/
def dpHash (mapping : MetricMapping) (dp : MetricDataPoint) : String :=
  match extract_customer_id dp mapping with
  | none => ""
  | some cid => hash_input cid (floorMinute dp.timestamp) dp.metric_name dp.value

/-- A grouping step never removes a hash from the processed set. -/
lemma groupStep_hashes_mono (customers : List String) (mapping : MetricMapping)
    (st : List ((String × ℤ) × List MetricDataPoint) × List String)
    (dp : MetricDataPoint) (x : String) (hx : x ∈ st.2) :
    x ∈ (groupStep customers mapping st dp).2 := by
  unfold groupStep
  cases hcid : extract_customer_id dp mapping with
  | none => simp only [hcid]; exact hx
  | some cid =>
    simp only [hcid]
    cases h1 : customers.contains cid with
    | false => exact hx
    | true =>
      cases h2 : matches_label_filters dp.labels mapping with
      | false => exact hx
      | true =>
        simp only [is_duplicate]
        cases h3 : st.2.contains
            (hash_input cid (floorMinute dp.timestamp) dp.metric_name dp.value) with
        | true => exact hx
        | false => exact List.mem_cons_of_mem _ hx

/-- A data point that fails the checks, or whose hash is already processed,
leaves the grouping state unchanged. -/
lemma groupStep_skip (customers : List String) (mapping : MetricMapping)
    (st : List ((String × ℤ) × List MetricDataPoint) × List String)
    (dp : MetricDataPoint)
    (h : dpPasses customers mapping dp = false ∨ dpHash mapping dp ∈ st.2) :
    groupStep customers mapping st dp = st := by
  unfold groupStep
  unfold dpPasses dpHash at h
  cases hcid : extract_customer_id dp mapping with
  | none => simp only [hcid]
  | some cid =>
    simp only [hcid] at h
    simp only [hcid]
    cases h1 : customers.contains cid with
    | false => rfl
    | true =>
      cases h2 : matches_label_filters dp.labels mapping with
      | false => rfl
      | true =>
        have hmem : hash_input cid (floorMinute dp.timestamp) dp.metric_name
            dp.value ∈ st.2 := by
          rcases h with h | h
          · rw [h1, h2] at h
            exact absurd h (by decide)
          · exact h
        simp only [is_duplicate]
        have hcont : st.2.contains (hash_input cid (floorMinute dp.timestamp)
            dp.metric_name dp.value) = true := List.elem_eq_true_of_mem hmem
        rw [hcont]
        rfl

/-- A data point that passes the checks has its hash in the processed set
after its grouping step. -/
lemma groupStep_records_hash (customers : List String) (mapping : MetricMapping)
    (st : List ((String × ℤ) × List MetricDataPoint) × List String)
    (dp : MetricDataPoint) (h : dpPasses customers mapping dp = true) :
    dpHash mapping dp ∈ (groupStep customers mapping st dp).2 := by
  unfold groupStep
  unfold dpPasses at h
  unfold dpHash
  cases hcid : extract_customer_id dp mapping with
  | none => simp only [hcid] at h; exact absurd h (by decide)
  | some cid =>
    simp only [hcid] at h
    rw [Bool.and_eq_true] at h
    simp only [hcid]
    rw [h.1, h.2]
    simp only [is_duplicate]
    cases hcont : st.2.contains
        (hash_input cid (floorMinute dp.timestamp) dp.metric_name dp.value) with
    | true => exact List.mem_of_elem_eq_true hcont
    | false => exact List.mem_cons_self _ _

/-- The grouping fold never removes a hash from the processed set. -/
lemma groupFold_hashes_mono (customers : List String) (mapping : MetricMapping)
    (dps : List MetricDataPoint) :
    ∀ st x, x ∈ st.2 → x ∈ (dps.foldl (groupStep customers mapping) st).2 := by
  induction dps with
  | nil => intro st x hx; simpa using hx
  | cons dp dps ih =>
    intro st x hx
    rw [List.foldl_cons]
    exact ih _ x (groupStep_hashes_mono customers mapping st dp x hx)

/-- After the grouping fold, every passing data point's hash is processed. -/
lemma groupFold_records_hashes (customers : List String) (mapping : MetricMapping)
    (dps : List MetricDataPoint) :
    ∀ st dp, dp ∈ dps → dpPasses customers mapping dp = true →
      dpHash mapping dp ∈ (dps.foldl (groupStep customers mapping) st).2 := by
  induction dps with
  | nil => intro st dp h; exact absurd h (List.not_mem_nil dp)
  | cons dp0 dps ih =>
    intro st dp hmem hpass
    rw [List.foldl_cons]
    rcases List.mem_cons.mp hmem with rfl | htail
    · exact groupFold_hashes_mono customers mapping dps _ _
        (groupStep_records_hash customers mapping st dp hpass)
    · exact ih _ dp htail hpass

/-- If every passing data point's hash is already processed, the grouping
fold is a no-op: no groups are formed and the hash set is unchanged. -/
lemma groupFold_noop (customers : List String) (mapping : MetricMapping)
    (dps : List MetricDataPoint) :
    ∀ st, (∀ dp ∈ dps, dpPasses customers mapping dp = true →
        dpHash mapping dp ∈ st.2) →
      dps.foldl (groupStep customers mapping) st = st := by
  induction dps with
  | nil => intro st _; rfl
  | cons dp dps ih =>
    intro st h
    have hstep : groupStep customers mapping st dp = st := by
      apply groupStep_skip
      by_cases hp : dpPasses customers mapping dp = true
      · exact Or.inr (h dp (List.mem_cons_self dp dps) hp)
      · exact Or.inl (by simpa using hp)
    rw [List.foldl_cons, hstep]
    exact ih st (fun d hd hp => h d (List.mem_cons_of_mem dp hd) hp)

/-- C9: external-metric import is idempotent per transformer run — feeding
the very same collection result through `transform_metrics` a second time
(with the row store and `_processed_hashes` left by the first run) is fully
deduplicated by the content hash: the second run emits no meter readings and
leaves the row store untouched (no inserts, no additive updates). -/
theorem C9_external_metric_import_idempotent (customers : List String)
    (db : List MeterReadingRow) (hashes : List String)
    (collection_result : MetricCollectionResult) (mapping : MetricMapping) :
    (transform_metrics customers
        (transform_metrics customers db hashes collection_result mapping).db
        (transform_metrics customers db hashes collection_result mapping).hashes
        collection_result mapping).meter_readings = [] ∧
    (transform_metrics customers
        (transform_metrics customers db hashes collection_result mapping).db
        (transform_metrics customers db hashes collection_result mapping).hashes
        collection_result mapping).db =
      (transform_metrics customers db hashes collection_result mapping).db := by
  by_cases hs : collection_result.success = true
  · by_cases hv : validate_mapping mapping = true
    · have hgroup :
          group_by_customer_and_window customers mapping
            collection_result.data_points
            (group_by_customer_and_window customers mapping
              collection_result.data_points hashes).2 =
          ([], (group_by_customer_and_window customers mapping
              collection_result.data_points hashes).2) := by
        apply groupFold_noop
        intro dp hdp hpass
        exact groupFold_records_hashes customers mapping
          collection_result.data_points ([], hashes) dp hdp hpass
      simp only [transform_metrics, hs, hv, Bool.not_true, Bool.false_eq_true,
        if_false, group_by_customer_and_window] at hgroup ⊢
      rw [hgroup]
      simp [transformLoop]
    · simp [transform_metrics, hs, hv]
  · simp [transform_metrics, hs]

/- ----------------------------------------------------------------
   C5
   ---------------------------------------------------------------- -/

/-- With no remaining usage the tier loop stops immediately. -/
lemma tieredLoop_eq_zero_of_nonpos (tiers : List PricingTier) (r p : ℚ)
    (hr : r ≤ 0) : tieredLoop tiers r p = (0, []) := by
  cases tiers with
  | nil => rfl
  | cons tier rest => simp only [tieredLoop, if_pos hr]

/-- With nonnegative unit prices and flat fees every tier contributes a
nonnegative amount, so the accumulated total is nonnegative. -/
lemma tieredLoop_fst_nonneg : ∀ (tiers : List PricingTier),
    (∀ t ∈ tiers, 0 ≤ t.unit_price ∧ 0 ≤ t.flat_fee) →
    ∀ r p, 0 ≤ (tieredLoop tiers r p).1 := by
  intro tiers
  induction tiers with
  | nil => intro _ r p; exact le_refl _
  | cons tier rest ih =>
    intro h r p
    have htier := h tier (List.mem_cons_self _ _)
    have hrest : ∀ t ∈ rest, 0 ≤ t.unit_price ∧ 0 ≤ t.flat_fee :=
      fun t ht => h t (List.mem_cons_of_mem _ ht)
    simp only [tieredLoop]
    split_ifs with h1 h2 h3 h4 h5
    · exact le_refl _
    · exact le_refl _
    · exact add_nonneg (add_nonneg
        (mul_nonneg (le_of_lt h4) htier.1) htier.2) (ih hrest _ _)
    · exact ih hrest _ _
    · exact add_nonneg (add_nonneg
        (mul_nonneg (le_of_lt h5) htier.1) htier.2) (ih hrest _ _)
    · exact ih hrest _ _

/-- The comparison step for one tier with a common capacity `cap` and start
`p'`: larger remaining usage never yields a smaller total, given nonneg
pricing and monotonicity of the remaining tiers. -/
lemma tieredStep_cmp (P F : ℚ) (hP : 0 ≤ P) (_hF : 0 ≤ F)
    (rest : List PricingTier)
    (hrest : ∀ t ∈ rest, 0 ≤ t.unit_price ∧ 0 ≤ t.flat_fee)
    (ihrest : ∀ p rx ry, rx ≤ ry →
      (tieredLoop rest rx p).1 ≤ (tieredLoop rest ry p).1)
    (p' cap a b : ℚ) (ha : 0 < a) (hab : a ≤ b) :
    (if 0 < min a cap then
        min a cap * P + F + (tieredLoop rest (a - min a cap) (p' + min a cap)).1
      else (tieredLoop rest a p').1) ≤
    (if 0 < min b cap then
        min b cap * P + F + (tieredLoop rest (b - min b cap) (p' + min b cap)).1
      else (tieredLoop rest b p').1) := by
  by_cases hux : 0 < min a cap
  · have huy : 0 < min b cap := lt_of_lt_of_le hux (min_le_min hab (le_refl cap))
    rw [if_pos hux, if_pos huy]
    by_cases hcap : cap ≤ a
    · have hxe : min a cap = cap := min_eq_right hcap
      have hye : min b cap = cap := min_eq_right (le_trans hcap hab)
      rw [hxe, hye]
      have hr := ihrest (p' + cap) (a - cap) (b - cap) (by linarith)
      linarith
    · have hxe : min a cap = a := min_eq_left (le_of_not_le hcap)
      rw [hxe]
      have hz : (tieredLoop rest (a - a) (p' + a)).1 = 0 := by
        rw [tieredLoop_eq_zero_of_nonpos rest (a - a) (p' + a) (by linarith)]
      rw [hz]
      have h1 : a ≤ min b cap := le_min hab (le_of_not_le hcap)
      have h2 : 0 ≤ (tieredLoop rest (b - min b cap) (p' + min b cap)).1 :=
        tieredLoop_fst_nonneg rest hrest _ _
      have h3 : a * P ≤ min b cap * P := mul_le_mul_of_nonneg_right h1 hP
      linarith
  · have hcap0 : cap ≤ 0 := by
      by_contra hc
      push_neg at hc
      exact hux (lt_min ha hc)
    have huy : ¬ 0 < min b cap := by
      intro hy
      have := min_le_right b cap
      linarith
    rw [if_neg hux, if_neg huy]
    exact ihrest p' a b hab

/-- Tiered pricing is monotone in the usage when all unit prices and flat
fees are nonnegative: each additional unit of usage is billed at a
nonnegative price, and crossing into a further tier only adds nonnegative
flat fees. -/
lemma tieredLoop_fst_mono : ∀ (tiers : List PricingTier),
    (∀ t ∈ tiers, 0 ≤ t.unit_price ∧ 0 ≤ t.flat_fee) →
    ∀ p rx ry, rx ≤ ry →
      (tieredLoop tiers rx p).1 ≤ (tieredLoop tiers ry p).1 := by
  intro tiers
  induction tiers with
  | nil => intro _ p rx ry _; exact le_refl _
  | cons tier rest ih =>
    intro h p rx ry hxy
    have htier := h tier (List.mem_cons_self _ _)
    have hrest : ∀ t ∈ rest, 0 ≤ t.unit_price ∧ 0 ≤ t.flat_fee :=
      fun t ht => h t (List.mem_cons_of_mem _ ht)
    by_cases hx0 : rx ≤ 0
    · have hL : (tieredLoop (tier :: rest) rx p).1 = 0 := by
        rw [tieredLoop_eq_zero_of_nonpos _ _ _ hx0]
      rw [hL]
      exact tieredLoop_fst_nonneg _ h _ _
    · have hy0 : ¬ ry ≤ 0 := fun hy => hx0 (le_trans hxy hy)
      by_cases hstart : p < tier.min_usage
      · by_cases hxskip : rx ≤ tier.min_usage - p
        · have hL : (tieredLoop (tier :: rest) rx p).1 = 0 := by
            simp only [tieredLoop, if_neg hx0, if_pos hstart, if_pos hxskip]
          rw [hL]
          exact tieredLoop_fst_nonneg _ h _ _
        · have hyskip : ¬ ry ≤ tier.min_usage - p :=
            fun hy => hxskip (le_trans hxy hy)
          simp only [tieredLoop, if_neg hx0, if_neg hy0, if_pos hstart,
            if_neg hxskip, if_neg hyskip,
            apply_ite (Prod.fst : ℚ × List (ℚ × ℚ × ℚ) → ℚ)]
          cases hmax : tier.max_usage with
          | some m =>
            simp only [Option.getD_some]
            exact tieredStep_cmp tier.unit_price tier.flat_fee htier.1 htier.2
              rest hrest (ih hrest) tier.min_usage (m - tier.min_usage)
              (rx - (tier.min_usage - p)) (ry - (tier.min_usage - p))
              (by linarith [lt_of_not_le hxskip]) (by linarith)
          | none =>
            simp only [Option.getD_none]
            have hcx : p + rx - tier.min_usage = rx - (tier.min_usage - p) := by
              ring
            have hcy : p + ry - tier.min_usage = ry - (tier.min_usage - p) := by
              ring
            rw [hcx, hcy, min_self, min_self]
            have hax : 0 < rx - (tier.min_usage - p) := by
              linarith [lt_of_not_le hxskip]
            have hay : 0 < ry - (tier.min_usage - p) := by linarith
            rw [if_pos hax, if_pos hay]
            rw [tieredLoop_eq_zero_of_nonpos rest _ _
              (by linarith : rx - (tier.min_usage - p) -
                (rx - (tier.min_usage - p)) ≤ 0)]
            rw [tieredLoop_eq_zero_of_nonpos rest _ _
              (by linarith : ry - (tier.min_usage - p) -
                (ry - (tier.min_usage - p)) ≤ 0)]
            have := mul_le_mul_of_nonneg_right
              (by linarith : rx - (tier.min_usage - p) ≤ ry - (tier.min_usage - p))
              htier.1
            simp only []
            linarith
      · simp only [tieredLoop, if_neg hx0, if_neg hy0, if_neg hstart,
          apply_ite (Prod.fst : ℚ × List (ℚ × ℚ × ℚ) → ℚ)]
        cases hmax : tier.max_usage with
        | some m =>
          simp only [Option.getD_some]
          exact tieredStep_cmp tier.unit_price tier.flat_fee htier.1 htier.2
            rest hrest (ih hrest) p (m - p) rx ry (lt_of_not_le hx0) hxy
        | none =>
          simp only [Option.getD_none]
          have hcx : p + rx - p = rx := by ring
          have hcy : p + ry - p = ry := by ring
          rw [hcx, hcy, min_self, min_self]
          rw [if_pos (lt_of_not_le hx0), if_pos (lt_of_not_le hy0)]
          rw [tieredLoop_eq_zero_of_nonpos rest _ _ (by linarith : rx - rx ≤ 0)]
          rw [tieredLoop_eq_zero_of_nonpos rest _ _ (by linarith : ry - ry ≤ 0)]
          have := mul_le_mul_of_nonneg_right hxy htier.1
          simp only []
          linarith

/-- The C5 counterexample pricing: a single unbounded tier with a negative
unit price (nothing in `MeterPricing` forbids it). -/
def pricingC5 : MeterPricing := { meter_key := "m", tiers := [{ unit_price := -1 }] }

/-- C5 counterexample: with a negative unit price, `calculate_tiered_pricing`
is not monotone — usage 0 ≤ 1 but the total for 1 is smaller than for 0. -/
theorem C5_counterexample :
    (0 : ℚ) ≤ 1 ∧
    (calculate_tiered_pricing 1 pricingC5).1 < (calculate_tiered_pricing 0 pricingC5).1 := by
  constructor
  · norm_num
  · norm_num [pricingC5, calculate_tiered_pricing, tieredLoop]

/-- C5 (amended): tiered pricing is monotone for every `MeterPricing` whose
tiers all carry nonnegative unit prices and flat fees: `x ≤ y` implies
`calculate_tiered_pricing(x, P).total ≤ calculate_tiered_pricing(y, P).total`. -/
theorem C5_tiered_pricing_monotone (P : MeterPricing) (x y : ℚ)
    (hnn : ∀ t ∈ P.tiers, 0 ≤ t.unit_price ∧ 0 ≤ t.flat_fee) (hxy : x ≤ y) :
    (calculate_tiered_pricing x P).1 ≤ (calculate_tiered_pricing y P).1 := by
  unfold calculate_tiered_pricing
  split
  · exact le_refl _
  · exact tieredLoop_fst_mono P.tiers hnn 0 x y hxy

/-- The single tier used by the C5 witness. -/
def tierC5w : PricingTier := { max_usage := some 10, unit_price := 2, flat_fee := 1 }

/-- The pricing used by the C5 witness. -/
def pricingC5w : MeterPricing := { meter_key := "m", tiers := [tierC5w] }

/-- C5 witness: the amended monotonicity at a concrete pricing and inputs. -/
theorem C5_tiered_pricing_monotone_witness :
    (calculate_tiered_pricing 1 pricingC5w).1 ≤ (calculate_tiered_pricing 2 pricingC5w).1 :=
  C5_tiered_pricing_monotone pricingC5w 1 2
    (by
      intro t ht
      have : t = tierC5w := by simpa [pricingC5w] using ht
      rw [this]
      constructor <;> norm_num [tierC5w])
    (by norm_num)

/- ----------------------------------------------------------------
   C1
   ---------------------------------------------------------------- -/

/-- `sum(...)` with a `foldl` accumulator equals the mapped list sum. -/
lemma sum_amounts_eq (lines : List RatedLine) :
    sum_amounts lines = (lines.map RatedLine.amount).sum := by
  unfold sum_amounts
  suffices h : ∀ acc : ℚ, lines.foldl (fun a l => a + l.amount) acc =
      acc + (lines.map RatedLine.amount).sum by
    simpa using h 0
  induction lines with
  | nil => intro acc; simp
  | cons l ls ih =>
    intro acc
    rw [List.foldl_cons, ih, List.map_cons, List.sum_cons]
    ring

/-- A successful dict lookup comes from an entry of the dict. -/
lemma dictGet_mem {α : Type} {d : Dict α} {k : String} {v : α}
    (h : dictGet d k = some v) : ∃ k', (k', v) ∈ d := by
  unfold dictGet at h
  cases hf : d.find? (fun p => p.1 == k) with
  | none => rw [hf] at h; exact absurd h (by simp)
  | some pr =>
    rw [hf] at h
    simp at h
    refine ⟨pr.1, ?_⟩
    rw [← h]
    exact List.mem_of_find?_eq_some hf

/-- All tier prices of a policy's meter pricings are nonnegative. -/
def NonnegPricing (policy : RatingPolicy) : Prop :=
  ∀ pr ∈ policy.meter_pricing, ∀ t ∈ pr.2.tiers,
    0 ≤ t.unit_price ∧ 0 ≤ t.flat_fee

/-- Tiered pricing totals are nonnegative under nonnegative tier pricing. -/
lemma calculate_tiered_pricing_fst_nonneg (u : ℚ) (pr : MeterPricing)
    (h : ∀ t ∈ pr.tiers, 0 ≤ t.unit_price ∧ 0 ≤ t.flat_fee) :
    0 ≤ (calculate_tiered_pricing u pr).1 := by
  unfold calculate_tiered_pricing
  split
  · exact le_refl _
  · exact tieredLoop_fst_nonneg _ h _ _

/-- `_rate_meter` lines have nonnegative amounts under nonnegative pricing. -/
lemma rate_meter_amount_nonneg (r : UsageReading) (policy : RatingPolicy)
    (hpr : NonnegPricing policy) :
    ∀ l ∈ rate_meter r policy, 0 ≤ l.amount := by
  intro l hl
  unfold rate_meter at hl
  cases hp : dictGet policy.meter_pricing r.meter_key with
  | none => rw [hp] at hl; exact absurd hl (List.not_mem_nil l)
  | some mp =>
    rw [hp] at hl
    have hmp : ∀ t ∈ mp.tiers, 0 ≤ t.unit_price ∧ 0 ≤ t.flat_fee := by
      obtain ⟨k', hk⟩ := dictGet_mem hp
      exact hpr (k', mp) hk
    dsimp only at hl
    split_ifs at hl
    all_goals have hl2 := List.mem_singleton.mp hl
    all_goals rw [hl2]
    all_goals first
      | exact le_refl _
      | exact calculate_tiered_pricing_fst_nonneg _ _ hmp

/-- `_rate_edge_with_envelope` lines have nonnegative amounts under
nonnegative pricing. -/
lemma rate_edge_with_envelope_amount_nonneg (r : UsageReading)
    (policy : RatingPolicy) (envs : Dict EnvelopeAllocation) (rf : ℚ)
    (hpr : NonnegPricing policy) :
    ∀ l ∈ (rate_edge_with_envelope r policy envs rf).1, 0 ≤ l.amount := by
  intro l hl
  unfold rate_edge_with_envelope at hl
  cases hp : dictGet policy.meter_pricing r.meter_key with
  | none => rw [hp] at hl; exact absurd hl (List.not_mem_nil l)
  | some mp =>
    rw [hp] at hl
    have hmp : ∀ t ∈ mp.tiers, 0 ≤ t.unit_price ∧ 0 ≤ t.flat_fee := by
      obtain ⟨k', hk⟩ := dictGet_mem hp
      exact hpr (k', mp) hk
    dsimp only at hl
    split_ifs at hl
    all_goals have hl2 := List.mem_singleton.mp hl
    all_goals rw [hl2]
    all_goals first
      | exact le_refl _
      | exact calculate_tiered_pricing_fst_nonneg _ _ hmp

/-- Work-pass lines have nonnegative amounts under nonnegative pricing. -/
lemma rateWorkReadings_amount_nonneg (rs : List UsageReading)
    (policy : RatingPolicy) (hpr : NonnegPricing policy) :
    ∀ l ∈ rateWorkReadings rs policy, 0 ≤ l.amount := by
  intro l hl
  unfold rateWorkReadings at hl
  rw [List.mem_flatMap] at hl
  obtain ⟨r, _, hr⟩ := hl
  split_ifs at hr
  · exact rate_meter_amount_nonneg r policy hpr l hr
  · exact absurd hr (List.not_mem_nil l)

/-- Plain edge-pass lines have nonnegative amounts. -/
lemma rateEdgeReadingsPlain_amount_nonneg (rs : List UsageReading)
    (policy : RatingPolicy) (hpr : NonnegPricing policy) :
    ∀ l ∈ rateEdgeReadingsPlain rs policy, 0 ≤ l.amount := by
  intro l hl
  unfold rateEdgeReadingsPlain at hl
  rw [List.mem_flatMap] at hl
  obtain ⟨r, _, hr⟩ := hl
  split_ifs at hr
  · exact rate_meter_amount_nonneg r policy hpr l hr
  · exact absurd hr (List.not_mem_nil l)

/-- Envelope edge-pass lines have nonnegative amounts. -/
lemma rateEdgeReadings_amount_nonneg : ∀ (rs : List UsageReading)
    (policy : RatingPolicy) (envs : Dict EnvelopeAllocation) (rf : ℚ),
    NonnegPricing policy →
    ∀ l ∈ (rateEdgeReadings rs policy envs rf).1, 0 ≤ l.amount := by
  intro rs
  induction rs with
  | nil => intro policy envs rf _ l hl; exact absurd hl (List.not_mem_nil l)
  | cons r rs ih =>
    intro policy envs rf hpr l hl
    unfold rateEdgeReadings at hl
    split_ifs at hl
    · rcases List.mem_append.mp (by simpa using hl) with h | h
      · exact rate_edge_with_envelope_amount_nonneg r policy envs rf hpr l h
      · exact ih policy _ rf hpr l h
    · exact ih policy envs rf hpr l hl

/-- Parallel-pass lines have nonnegative amounts. -/
lemma rate_parallel_amount_nonneg : ∀ (rs : List UsageReading)
    (policy : RatingPolicy) (envs : Dict EnvelopeAllocation),
    NonnegPricing policy →
    ∀ l ∈ (rate_parallel rs policy envs).1, 0 ≤ l.amount := by
  intro rs
  induction rs with
  | nil => intro policy envs _ l hl; exact absurd hl (List.not_mem_nil l)
  | cons r rs ih =>
    intro policy envs hpr l hl
    unfold rate_parallel at hl
    split_ifs at hl
    · rcases List.mem_append.mp (by simpa using hl) with h | h
      · exact rate_meter_amount_nonneg r policy hpr l h
      · exact ih policy envs hpr l h
    · rcases List.mem_append.mp (by simpa using hl) with h | h
      · exact rate_edge_with_envelope_amount_nonneg r policy envs 0.5 hpr l h
      · exact ih policy _ hpr l h
    · exact ih policy envs hpr l hl

/-- Lines produced by any precedence mode have nonnegative amounts. -/
lemma ratedByPrecedence_amount_nonneg (rs : List UsageReading)
    (policy : RatingPolicy) (envs : Dict EnvelopeAllocation)
    (hpr : NonnegPricing policy) :
    ∀ l ∈ (ratedByPrecedence rs policy envs).1, 0 ≤ l.amount := by
  intro l hl
  unfold ratedByPrecedence at hl
  split_ifs at hl
  · unfold rate_work_over_edges at hl
    rcases List.mem_append.mp (by simpa using hl) with h | h
    · exact rateWorkReadings_amount_nonneg rs policy hpr l h
    · exact rateEdgeReadings_amount_nonneg rs policy envs 1 hpr l h
  · unfold rate_edges_over_work at hl
    rcases List.mem_append.mp (by simpa using hl) with h | h
    · exact rateEdgeReadingsPlain_amount_nonneg rs policy hpr l h
    · exact rateWorkReadings_amount_nonneg rs policy hpr l h
  · exact rate_parallel_amount_nonneg rs policy envs hpr l hl

/-- The full line list (rated + base fee + success fees) keeps amounts
nonnegative (the base fee line is only appended when the fee is positive). -/
lemma linesWithFees_amount_nonneg (policy : RatingPolicy)
    (rated : List RatedLine) (sfl : List RatedLine)
    (hr : ∀ l ∈ rated, 0 ≤ l.amount) (hsf : ∀ l ∈ sfl, 0 ≤ l.amount) :
    ∀ l ∈ linesWithFees policy rated sfl, 0 ≤ l.amount := by
  intro l hl
  unfold linesWithFees at hl
  rw [List.mem_append] at hl
  rcases hl with hl | hl
  · split_ifs at hl with hb
    · rw [List.mem_append] at hl
      rcases hl with hl | hl
      · exact hr l hl
      · rw [List.mem_singleton] at hl
        rw [hl]
        exact le_of_lt hb
    · exact hr l hl
  · exact hsf l hl

/-- The spend-cap step keeps `total = (pre-cap total + pre-cap discount) -
post-cap discount` — i.e. subtotal minus discount is preserved. -/
lemma applySpendCap_total_eq (policy : RatingPolicy) (d t : ℚ) :
    (applySpendCap policy d t).2 = (t + d) - (applySpendCap policy d t).1 := by
  unfold applySpendCap
  cases policy.spend_cap with
  | none => dsimp only; ring
  | some cap =>
    dsimp only
    split_ifs with h
    · dsimp only; ring
    · dsimp only; ring

/-- The spend-cap step keeps a nonnegative total nonnegative when the cap
(if set) is nonnegative. -/
lemma applySpendCap_total_nonneg (policy : RatingPolicy) (d t : ℚ)
    (ht : 0 ≤ t) (hcap : ∀ c, policy.spend_cap = some c → 0 ≤ c) :
    0 ≤ (applySpendCap policy d t).2 := by
  unfold applySpendCap
  cases hc : policy.spend_cap with
  | none => exact ht
  | some cap =>
    dsimp only
    split_ifs with h
    · exact hcap cap hc
    · exact ht

/-- Under a set, nonzero spend cap the total never exceeds the cap. -/
lemma applySpendCap_total_le_cap (policy : RatingPolicy) (d t c : ℚ)
    (hc : policy.spend_cap = some c) (hcne : c ≠ 0) :
    (applySpendCap policy d t).2 ≤ c := by
  unfold applySpendCap
  rw [hc]
  dsimp only
  split_ifs with h
  · exact le_refl c
  · push_neg at h
    exact h hcne

/-- C1 policy A for the counterexample: a discount above 100%. -/
def policyC1a : RatingPolicy := { base_fee := 100, discount_percent := 200 }

/-- C1 policy B for the counterexample: a spend cap set to zero, which is
falsy in Python, so the cap branch never fires. -/
def policyC1b : RatingPolicy := { base_fee := 100, spend_cap := some 0 }

/-- A single unpriced reading (forces the non-empty rating path). -/
def readingsC1 : List UsageReading := [{ meter_key := "x", value := 1 }]

/-- C1 counterexample: with `discount_percent = 200` the total is `-100 < 0`,
refuting `R.total ≥ 0`; and with `spend_cap = 0` (set!) the cap is never
applied (`Decimal("0")` is falsy), leaving `total = 100 > 0 = spend_cap`,
refuting "if `policy.spend_cap` is set then `R.total ≤ spend_cap`". -/
theorem C1_counterexample :
    (rate_customer_period "c" "s" "e" policyC1a readingsC1 [] 0).total = -100 ∧
    policyC1b.spend_cap = some 0 ∧
    (rate_customer_period "c" "s" "e" policyC1b readingsC1 [] 0).total = 100 := by
  have h1 : is_work_meter "x" = false := by decide
  have h2 : is_edge_meter "x" = false := by decide
  refine ⟨?_, rfl, ?_⟩ <;>
    norm_num [policyC1a, policyC1b, readingsC1, rate_customer_period,
      apply_exclusions, allocate_work_envelopes, envelopeAllocationsInit,
      ratedByPrecedence, linesWithFees, applySpendCap, baseFeeLine,
      rate_work_over_edges, rateWorkReadings, rateEdgeReadings,
      rate_edge_with_envelope, rate_meter, h1, h2, dictGet, dictSet,
      dictAdd, sum_amounts]

/-- C1 (amended): for every rating result, `subtotal` is the sum of the line
amounts and `total = subtotal - discount_amount` hold unconditionally by
construction; moreover, when every configured tier price and flat fee is
nonnegative, every success-fee line amount is nonnegative,
`0 ≤ discount_percent ≤ 100`, and the spend cap (when set) is nonnegative,
then `total ≥ 0`; and whenever the spend cap is set and nonzero (Python
truthiness), `total ≤ spend_cap`, the clamp being folded into the
discount. -/
theorem C1_rating_totals (cid ps pe : String) (policy : RatingPolicy)
    (readings : List UsageReading) (success_fee_lines : List RatedLine)
    (cogs : ℚ) (hpr : NonnegPricing policy)
    (hsf : ∀ l ∈ success_fee_lines, 0 ≤ l.amount)
    (_hdp0 : 0 ≤ policy.discount_percent)
    (hdp1 : policy.discount_percent ≤ 100)
    (hcap : ∀ c, policy.spend_cap = some c → 0 ≤ c) :
    (rate_customer_period cid ps pe policy readings success_fee_lines cogs).subtotal =
      ((rate_customer_period cid ps pe policy readings success_fee_lines
        cogs).lines.map RatedLine.amount).sum ∧
    (rate_customer_period cid ps pe policy readings success_fee_lines cogs).total =
      (rate_customer_period cid ps pe policy readings success_fee_lines cogs).subtotal -
      (rate_customer_period cid ps pe policy readings success_fee_lines cogs).discount_amount ∧
    0 ≤ (rate_customer_period cid ps pe policy readings success_fee_lines cogs).total ∧
    (∀ c, policy.spend_cap = some c → c ≠ 0 →
      (rate_customer_period cid ps pe policy readings success_fee_lines cogs).total ≤ c) := by
  unfold rate_customer_period
  split
  · refine ⟨?_, ?_, ?_, ?_⟩
    · rw [← sum_amounts_eq]
      rfl
    · norm_num [create_empty_result]
    · norm_num [create_empty_result]
    · intro c hc _
      have := hcap c hc
      simpa [create_empty_result] using this
  · dsimp only
    set L := linesWithFees policy
      (ratedByPrecedence (apply_exclusions readings policy) policy
        (envelopeAllocationsInit (apply_exclusions readings policy) policy)).1
      success_fee_lines with hLdef
    set S := sum_amounts L with hSdef
    have hLnn : ∀ l ∈ L, 0 ≤ l.amount := by
      rw [hLdef]
      exact linesWithFees_amount_nonneg policy _ _
        (ratedByPrecedence_amount_nonneg _ policy _ hpr) hsf
    have hSnn : 0 ≤ S := by
      rw [hSdef, sum_amounts_eq]
      apply List.sum_nonneg
      intro x hx
      obtain ⟨l, hl, rfl⟩ := List.mem_map.mp hx
      exact hLnn l hl
    have hdiv : policy.discount_percent / 100 ≤ 1 := by
      rw [div_le_one (by norm_num : (0:ℚ) < 100)]
      exact hdp1
    have hT : 0 ≤ S - S * (policy.discount_percent / 100) := by
      have := mul_le_mul_of_nonneg_left hdiv hSnn
      nlinarith
    refine ⟨?_, ?_, ?_, ?_⟩
    · rw [hSdef]
      exact sum_amounts_eq L
    · have key := applySpendCap_total_eq policy
        (S * (policy.discount_percent / 100))
        (S - S * (policy.discount_percent / 100))
      linarith
    · exact applySpendCap_total_nonneg policy _ _ hT hcap
    · intro c hc hcne
      exact applySpendCap_total_le_cap policy _ _ c hc hcne

/-- The policy of the C1 witness. -/
def policyC1w : RatingPolicy :=
  { base_fee := 99, spend_cap := some 50, discount_percent := 10 }

/-- C1 witness: the amended claim at a concrete policy with a positive base
fee, a 10% discount, and a spend cap of 50. -/
theorem C1_rating_totals_witness :
    (rate_customer_period "c" "s" "e" policyC1w readingsC1 [] 0).subtotal =
      ((rate_customer_period "c" "s" "e" policyC1w readingsC1 []
        0).lines.map RatedLine.amount).sum ∧
    (rate_customer_period "c" "s" "e" policyC1w readingsC1 [] 0).total =
      (rate_customer_period "c" "s" "e" policyC1w readingsC1 [] 0).subtotal -
      (rate_customer_period "c" "s" "e" policyC1w readingsC1 [] 0).discount_amount ∧
    0 ≤ (rate_customer_period "c" "s" "e" policyC1w readingsC1 [] 0).total ∧
    (∀ c, policyC1w.spend_cap = some c → c ≠ 0 →
      (rate_customer_period "c" "s" "e" policyC1w readingsC1 [] 0).total ≤ c) :=
  C1_rating_totals "c" "s" "e" policyC1w readingsC1 [] 0
    (by intro pr hpr; simp [policyC1w] at hpr)
    (by intro l hl; simp at hl)
    (by norm_num [policyC1w])
    (by norm_num [policyC1w])
    (by intro c hc; simp [policyC1w] at hc; rw [← hc]; norm_num)

/- ----------------------------------------------------------------
   C4
   ---------------------------------------------------------------- -/

/-- Every dropped meter of a fired exclusion lands in the excluded set. -/
lemma excludedMeters_aux (u : Dict UsageReading) (d : String) :
    ∀ (excl : List ExclusionRule) (acc : List String),
      (d ∈ acc ∨ ∃ e ∈ excl, exclusionFires u e = true ∧ d ∈ e.drop) →
      d ∈ excl.foldl
        (fun acc e => if exclusionFires u e then acc ++ e.drop else acc) acc := by
  intro excl
  induction excl with
  | nil =>
    intro acc h
    rcases h with h | ⟨e, he, _⟩
    · exact h
    · exact absurd he (List.not_mem_nil e)
  | cons e0 es ih =>
    intro acc h
    rw [List.foldl_cons]
    apply ih
    rcases h with h | ⟨e, he, hf, hd⟩
    · left
      split_ifs
      · exact List.mem_append_left _ h
      · exact h
    · rcases List.mem_cons.mp he with rfl | he'
      · left
        rw [if_pos hf]
        exact List.mem_append_right _ hd
      · right
        exact ⟨e, he', hf, hd⟩

/-- Membership form of `excludedMeters`. -/
lemma excludedMeters_mem (u : Dict UsageReading) (excl : List ExclusionRule)
    (e : ExclusionRule) (he : e ∈ excl) (hf : exclusionFires u e = true)
    (d : String) (hd : d ∈ e.drop) : d ∈ excludedMeters u excl :=
  excludedMeters_aux u d excl [] (Or.inr ⟨e, he, hf, hd⟩)

/-- Readings surviving `apply_exclusions` never carry a meter dropped by a
fired exclusion. -/
lemma apply_exclusions_no_dropped (readings : List UsageReading)
    (policy : RatingPolicy) (e : ExclusionRule) (he : e ∈ policy.exclusions)
    (hf : exclusionFires (usageByMeter readings) e = true) :
    ∀ r ∈ apply_exclusions readings policy, ∀ d ∈ e.drop, r.meter_key ≠ d := by
  intro r hr d hd heq
  unfold apply_exclusions at hr
  have hne : ¬ policy.exclusions.isEmpty = true := by
    cases hx : policy.exclusions with
    | nil => rw [hx] at he; exact absurd he (List.not_mem_nil e)
    | cons a as => simp [hx]
  rw [if_neg hne] at hr
  rw [List.mem_filter] at hr
  have hd' : d ∈ excludedMeters (usageByMeter readings) policy.exclusions :=
    excludedMeters_mem _ _ e he hf d hd
  have hcontains : (excludedMeters (usageByMeter readings)
      policy.exclusions).contains r.meter_key = true := by
    rw [heq]
    exact List.elem_eq_true_of_mem hd'
  rw [hcontains] at hr
  exact absurd hr.2 (by decide)

/-- `_rate_meter` lines carry the rated reading's meter key. -/
lemma rate_meter_key (r : UsageReading) (policy : RatingPolicy) :
    ∀ l ∈ rate_meter r policy, l.meter_key = r.meter_key := by
  intro l hl
  unfold rate_meter at hl
  cases hp : dictGet policy.meter_pricing r.meter_key with
  | none => rw [hp] at hl; exact absurd hl (List.not_mem_nil l)
  | some mp =>
    rw [hp] at hl
    dsimp only at hl
    split_ifs at hl
    all_goals have hl2 := List.mem_singleton.mp hl
    all_goals rw [hl2]

/-- `_rate_edge_with_envelope` lines carry the rated reading's meter key. -/
lemma rate_edge_with_envelope_key (r : UsageReading) (policy : RatingPolicy)
    (envs : Dict EnvelopeAllocation) (rf : ℚ) :
    ∀ l ∈ (rate_edge_with_envelope r policy envs rf).1,
      l.meter_key = r.meter_key := by
  intro l hl
  unfold rate_edge_with_envelope at hl
  cases hp : dictGet policy.meter_pricing r.meter_key with
  | none => rw [hp] at hl; exact absurd hl (List.not_mem_nil l)
  | some mp =>
    rw [hp] at hl
    dsimp only at hl
    split_ifs at hl
    all_goals have hl2 := List.mem_singleton.mp hl
    all_goals rw [hl2]

/-- Work-pass lines originate from some input reading. -/
lemma rateWorkReadings_key (rs : List UsageReading) (policy : RatingPolicy) :
    ∀ l ∈ rateWorkReadings rs policy, ∃ r ∈ rs, l.meter_key = r.meter_key := by
  intro l hl
  unfold rateWorkReadings at hl
  rw [List.mem_flatMap] at hl
  obtain ⟨r, hrm, hr⟩ := hl
  split_ifs at hr
  · exact ⟨r, hrm, rate_meter_key r policy l hr⟩
  · exact absurd hr (List.not_mem_nil l)

/-- Plain edge-pass lines originate from some input reading. -/
lemma rateEdgeReadingsPlain_key (rs : List UsageReading) (policy : RatingPolicy) :
    ∀ l ∈ rateEdgeReadingsPlain rs policy, ∃ r ∈ rs, l.meter_key = r.meter_key := by
  intro l hl
  unfold rateEdgeReadingsPlain at hl
  rw [List.mem_flatMap] at hl
  obtain ⟨r, hrm, hr⟩ := hl
  split_ifs at hr
  · exact ⟨r, hrm, rate_meter_key r policy l hr⟩
  · exact absurd hr (List.not_mem_nil l)

/-- Envelope edge-pass lines originate from some input reading. -/
lemma rateEdgeReadings_key : ∀ (rs : List UsageReading) (policy : RatingPolicy)
    (envs : Dict EnvelopeAllocation) (rf : ℚ),
    ∀ l ∈ (rateEdgeReadings rs policy envs rf).1,
      ∃ r ∈ rs, l.meter_key = r.meter_key := by
  intro rs
  induction rs with
  | nil => intro policy envs rf l hl; exact absurd hl (List.not_mem_nil l)
  | cons r rs ih =>
    intro policy envs rf l hl
    unfold rateEdgeReadings at hl
    split_ifs at hl
    · rcases List.mem_append.mp (by simpa using hl) with h | h
      · exact ⟨r, List.mem_cons_self r rs,
          rate_edge_with_envelope_key r policy envs rf l h⟩
      · obtain ⟨r', hr', hk⟩ := ih policy _ rf l h
        exact ⟨r', List.mem_cons_of_mem r hr', hk⟩
    · obtain ⟨r', hr', hk⟩ := ih policy envs rf l hl
      exact ⟨r', List.mem_cons_of_mem r hr', hk⟩

/-- Parallel-pass lines originate from some input reading. -/
lemma rate_parallel_key : ∀ (rs : List UsageReading) (policy : RatingPolicy)
    (envs : Dict EnvelopeAllocation),
    ∀ l ∈ (rate_parallel rs policy envs).1,
      ∃ r ∈ rs, l.meter_key = r.meter_key := by
  intro rs
  induction rs with
  | nil => intro policy envs l hl; exact absurd hl (List.not_mem_nil l)
  | cons r rs ih =>
    intro policy envs l hl
    unfold rate_parallel at hl
    split_ifs at hl
    · rcases List.mem_append.mp (by simpa using hl) with h | h
      · exact ⟨r, List.mem_cons_self r rs, rate_meter_key r policy l h⟩
      · obtain ⟨r', hr', hk⟩ := ih policy envs l h
        exact ⟨r', List.mem_cons_of_mem r hr', hk⟩
    · rcases List.mem_append.mp (by simpa using hl) with h | h
      · exact ⟨r, List.mem_cons_self r rs,
          rate_edge_with_envelope_key r policy envs 0.5 l h⟩
      · obtain ⟨r', hr', hk⟩ := ih policy _ l h
        exact ⟨r', List.mem_cons_of_mem r hr', hk⟩
    · obtain ⟨r', hr', hk⟩ := ih policy envs l hl
      exact ⟨r', List.mem_cons_of_mem r hr', hk⟩

/-- Lines of any precedence dispatch originate from some input reading. -/
lemma ratedByPrecedence_key (rs : List UsageReading) (policy : RatingPolicy)
    (envs : Dict EnvelopeAllocation) :
    ∀ l ∈ (ratedByPrecedence rs policy envs).1,
      ∃ r ∈ rs, l.meter_key = r.meter_key := by
  intro l hl
  unfold ratedByPrecedence at hl
  split_ifs at hl
  · unfold rate_work_over_edges at hl
    rcases List.mem_append.mp (by simpa using hl) with h | h
    · exact rateWorkReadings_key rs policy l h
    · exact rateEdgeReadings_key rs policy envs 1 l h
  · unfold rate_edges_over_work at hl
    rcases List.mem_append.mp (by simpa using hl) with h | h
    · exact rateEdgeReadingsPlain_key rs policy l h
    · exact rateWorkReadings_key rs policy l h
  · exact rate_parallel_key rs policy envs l hl

/-- The C4 counterexample exclusion rule: drops the pseudo-meter
`base_fee`. -/
def exclC4c : ExclusionRule :=
  { when := some "workflow.completed", drop := ["base_fee"] }

/-- The C4 counterexample policy. -/
def policyC4c : RatingPolicy := { exclusions := [exclC4c], base_fee := 10 }

/-- The C4 counterexample readings: the when-meter has positive usage. -/
def readingsC4c : List UsageReading :=
  [{ meter_key := "workflow.completed", value := 1 }]

/-- C4 counterexample: the exclusion fires (usage of its when-meter is 1 > 0)
and drops "base_fee", yet the rating result still contains a line whose
meter_key is "base_fee" — the base-fee line is appended independently of the
exclusion filtering, so "the RatingResult contains no line for any meter in
ds" fails as universally stated. -/
theorem C4_counterexample :
    exclC4c ∈ policyC4c.exclusions ∧
    "base_fee" ∈ exclC4c.drop ∧
    exclusionFires (usageByMeter readingsC4c) exclC4c = true ∧
    ∃ l ∈ (rate_customer_period "c" "s" "e" policyC4c readingsC4c [] 0).lines,
      l.meter_key = "base_fee" := by
  have h1 : is_work_meter "workflow.completed" = true := by decide
  have h2 : is_edge_meter "workflow.completed" = false := by decide
  refine ⟨List.mem_singleton_self _, List.mem_singleton_self _, ?_, ?_⟩
  · rfl
  · have hlines : (rate_customer_period "c" "s" "e" policyC4c readingsC4c []
        0).lines = [baseFeeLine policyC4c] := by
      norm_num [policyC4c, readingsC4c, exclC4c, rate_customer_period,
        apply_exclusions, usageByMeter, excludedMeters, exclusionFires,
        allocate_work_envelopes, envelopeAllocationsInit, ratedByPrecedence,
        linesWithFees, rate_work_over_edges, rateWorkReadings,
        rateEdgeReadings, rate_meter, h1, h2, dictGet, dictSet, dictAdd]
    rw [hlines]
    exact ⟨baseFeeLine policyC4c, List.mem_singleton_self _, rfl⟩

/-- C4 (amended): if an exclusion `{when: w, drop: ds}` of the policy fires —
`w` is set and non-empty and the aggregated usage of `w` is strictly
positive — then the rating result contains no WORK or EDGE line for any
meter in `ds` (the base-fee line and success-fee lines are keyed
independently of the readings and may still carry such a key), and no
reading surviving exclusion filtering — the only readings used for envelope
allocation and billing — has a meter in `ds`. -/
theorem C4_exclusion_soundness (cid ps pe : String) (policy : RatingPolicy)
    (readings : List UsageReading) (success_fee_lines : List RatedLine)
    (cogs : ℚ) (e : ExclusionRule) (w : String) (r0 : UsageReading)
    (hsf : ∀ l ∈ success_fee_lines, l.line_type = "success_fee")
    (he : e ∈ policy.exclusions) (hw : e.when = some w) (hwne : w ≠ "")
    (hu : dictGet (usageByMeter readings) w = some r0) (hv : 0 < r0.value) :
    (∀ l ∈ (rate_customer_period cid ps pe policy readings success_fee_lines
        cogs).lines,
      (l.line_type = "work" ∨ l.line_type = "edge") →
      ∀ d ∈ e.drop, l.meter_key ≠ d) ∧
    (∀ r ∈ apply_exclusions readings policy, ∀ d ∈ e.drop,
      r.meter_key ≠ d) := by
  have hfires : exclusionFires (usageByMeter readings) e = true := by
    unfold exclusionFires
    simp only [hw]
    have hie : w.isEmpty = false := by
      cases hi : w.isEmpty
      · rfl
      · exact absurd (by simpa [String.isEmpty_iff] using hi) hwne
    rw [hie, hu]
    simpa using hv
  have hdropped := apply_exclusions_no_dropped readings policy e he hfires
  refine ⟨?_, hdropped⟩
  intro l hl htype d hd
  unfold rate_customer_period at hl
  split at hl
  · dsimp only [create_empty_result] at hl
    exact absurd hl (List.not_mem_nil l)
  · dsimp only at hl
    unfold linesWithFees at hl
    rcases List.mem_append.mp hl with hseg | hseg
    · split_ifs at hseg with hb
      · rcases List.mem_append.mp hseg with hrl | hbf
        · obtain ⟨r, hrm, hk⟩ := ratedByPrecedence_key _ policy _ l hrl
          rw [hk]
          exact hdropped r hrm d hd
        · have hl2 := List.mem_singleton.mp hbf
          rw [hl2] at htype
          have hbt : (baseFeeLine policy).line_type = "base_fee" := rfl
          rw [hbt] at htype
          rcases htype with h | h <;> exact absurd h (by decide)
      · obtain ⟨r, hrm, hk⟩ := ratedByPrecedence_key _ policy _ l hseg
        rw [hk]
        exact hdropped r hrm d hd
    · have hsl := hsf l hseg
      rw [hsl] at htype
      rcases htype with h | h <;> exact absurd h (by decide)

/-- The C4 witness exclusion rule: the default-policy exclusion dropping
`api.calls` when workflows complete. -/
def exclC4w : ExclusionRule :=
  { when := some "workflow.completed", drop := ["api.calls"] }

/-- The C4 witness policy. -/
def policyC4w : RatingPolicy := { exclusions := [exclC4w] }

/-- The C4 witness readings. -/
def readingsC4w : List UsageReading :=
  [{ meter_key := "workflow.completed", value := 1 },
   { meter_key := "api.calls", value := 5 }]

/-- C4 witness: the amended claim at the default exclusion with positive
workflow usage. -/
theorem C4_exclusion_soundness_witness :
    (∀ l ∈ (rate_customer_period "c" "s" "e" policyC4w readingsC4w [] 0).lines,
      (l.line_type = "work" ∨ l.line_type = "edge") →
      ∀ d ∈ exclC4w.drop, l.meter_key ≠ d) ∧
    (∀ r ∈ apply_exclusions readingsC4w policyC4w,
      ∀ d ∈ exclC4w.drop, r.meter_key ≠ d) :=
  C4_exclusion_soundness "c" "s" "e" policyC4w readingsC4w [] 0
    exclC4w "workflow.completed"
    { meter_key := "workflow.completed", value := 1 }
    (by intro l hl; exact absurd hl (List.not_mem_nil l))
    (by simp [policyC4w])
    rfl
    (by decide)
    (by rfl)
    (by norm_num)

end Kachi
